import Mathlib

/-!
Verification of the polarstory report-building library (src/polarstory/report.py)
against its natural-language specification.  The Python code is shallowly
embedded: strings are Lean `String`s, Python ints are `Int`/`Nat`, Python
floats are modelled as rationals (`ℚ`), fallible code returns `Option` or
`Except`, and the mutable `Report` object becomes explicit state passing.
-/

namespace Polarstory

/-! ## Python string primitives -/

/-- Python `sep.join(parts)`: concatenate with `sep` between consecutive parts. -/
def pyJoin (sep : String) : List String → String
  | [] => ""
  | [x] => x
  | x :: xs => x ++ sep ++ pyJoin sep xs

/-- Characters treated as whitespace by Python `str.strip()` (ASCII fragment). -/
def isPySpace (c : Char) : Bool :=
  c = ' ' || c = '\t' || c = '\n' || c = '\x0d' || c = '\x0b' || c = '\x0c'

/-- Strip characters satisfying `p` from both ends of a list
(Python `str.strip` / `str.strip('-')`): first the trailing ones, then the
leading ones. -/
def pyStripWith (p : Char → Bool) (l : List Char) : List Char :=
  ((l.reverse.dropWhile p).reverse).dropWhile p

/-- Python `str.rstrip()`: remove trailing whitespace. -/
def pyRstrip (s : String) : String :=
  String.mk ((s.data.reverse.dropWhile isPySpace).reverse)

/-- Python `str.lower()` on one character (ASCII fragment of `str.lower`). -/
def pyLowerChar (c : Char) : Char :=
  if 65 ≤ c.toNat ∧ c.toNat ≤ 90 then Char.ofNat (c.toNat + 32) else c

/-- Python `str.lower()` over a whole string. -/
def pyLower (s : String) : String := String.mk (s.data.map pyLowerChar)

/-- Python `str.startswith(pre)` (used on dtype strings), as a structural
list-prefix test. -/
def pyStartsWith (s pre : String) : Bool := List.isPrefixOf pre.data s.data

/-- A regex `\w` word character (ASCII fragment: letters, digits, underscore). -/
def isWordChar (c : Char) : Bool := c.isAlphanum || c = '_'

/-- A character kept verbatim by the substitution `re.sub(r'[^\w\-]+', '-', text)`,
namely a word character or a hyphen. -/
def isWordOrHyphen (c : Char) : Bool := isWordChar c || c = '-'

/-- The substitution `re.sub(r'[^\w\-]+', '-', text)`: every maximal run of
characters outside `[\w-]` is replaced by a single hyphen.  A character of
such a run emits the single `'-'` only when the run ends (next character kept,
or end of string); the earlier characters of the run are dropped. -/
def collapseNonWord : List Char → List Char
  | [] => []
  | [c] => if isWordOrHyphen c then [c] else ['-']
  | a :: b :: t =>
    if isWordOrHyphen a then a :: collapseNonWord (b :: t)
    else if isWordOrHyphen b then '-' :: collapseNonWord (b :: t)
    else collapseNonWord (b :: t)

/-- The substitution `re.sub(r'-{2,}', '-', text)`: runs of two or more hyphens
become a single hyphen (a lone hyphen is untouched by the regex, which produces
the same output as keeping only the last hyphen of every run). -/
def collapseHyphens : List Char → List Char
  | [] => []
  | [c] => [c]
  | a :: b :: t =>
    if a = '-' ∧ b = '-' then collapseHyphens (b :: t)
    else a :: collapseHyphens (b :: t)

/-- Embedding of `_slugify` (report.py lines 12-16):
`text.strip().lower()`, replace runs outside `[\w-]` by `-`, collapse hyphen
runs, strip hyphens from both ends, defaulting to `"item"` when empty. -/
def pySlugify (s : String) : String :=
  let l0 := pyStripWith isPySpace s.data
  let l1 := l0.map pyLowerChar
  let l2 := collapseNonWord l1
  let l3 := collapseHyphens l2
  let l4 := pyStripWith (· = '-') l3
  if l4 = [] then "item" else String.mk l4

/-- Adjacent characters are not both hyphens: the key structural invariant of
slugifier output, used to show the hyphen-collapapsing stage is idempotent. -/
def noTwoHyphens (a b : Char) : Prop := ¬(a = '-' ∧ b = '-')

/-! ## Python number formatting -/

/-- Decimal digit character for `d < 10`. -/
def digitChar (d : Nat) : Char := Char.ofNat (48 + d)

/-- Decimal digits of `n`, least significant first, with enough fuel; one
division by ten per unit of fuel, so fuel `n` always suffices. -/
def natDigitsAux : Nat → Nat → List Char
  | 0, _ => []
  | fuel + 1, n => if n = 0 then [] else digitChar (n % 10) :: natDigitsAux fuel (n / 10)

/-- Decimal digits of a natural number, least significant first; `0` is `['0']`. -/
def natDigitsRev (n : Nat) : List Char :=
  if n = 0 then ['0'] else natDigitsAux n n

/-- Decimal rendering of a natural number (Python `str(n)` for `n ≥ 0`). -/
def natRepr (n : Nat) : String := String.mk (natDigitsRev n).reverse

/-- Decimal rendering of an integer (Python `str(n)`). -/
def intRepr (i : Int) : String :=
  (if i < 0 then "-" else "") ++ natRepr i.natAbs

/-- Insert a comma after every group of three digits, operating on a
least-significant-first digit list (Python thousands grouping `\x7b:,\x7d`). -/
def group3 : List Char → List Char
  | a :: b :: c :: d :: rest => a :: b :: c :: ',' :: group3 (d :: rest)
  | ds => ds

/-- Python `f'\x7bn:,\x7d'` for a natural number: thousands-separated decimal. -/
def commaNat (n : Nat) : String := String.mk (group3 (natDigitsRev n)).reverse

/-- Python `f'\x7bi:,\x7d'` for an int: sign plus thousands-separated magnitude. -/
def commaInt (i : Int) : String :=
  (if i < 0 then "-" else "") ++ commaNat i.natAbs

/-- Round a rational to the nearest integer, ties to even (the rounding used by
Python float formatting, applied here to the exact rational value). -/
def roundHalfEven (q : ℚ) : Int :=
  let f := ⌊q⌋
  let r := q - f
  if r < 1/2 then f
  else if 1/2 < r then f + 1
  else if f % 2 = 0 then f else f + 1

/-- Render `m < 100` as exactly two decimal digits. -/
def twoDigits (m : Nat) : String := String.mk [digitChar (m / 10 % 10), digitChar (m % 10)]

/-- Python `f'\x7bx:,.2f\x7d'` modelled on the exact rational value: round to two
decimals (ties to even), thousands-separate the integer part.  The sign of a
negative zero result is not modelled. -/
def commaFixed2 (q : ℚ) : String :=
  let n := roundHalfEven (q * 100)
  (if n < 0 then "-" else "") ++ commaNat (n.natAbs / 100) ++ "." ++ twoDigits (n.natAbs % 100)

/-- Python `f'\x7bx:.2f\x7d'` (no thousands grouping), used only to state the
spec's description of the `percent` formatters. -/
def plainFixed2 (q : ℚ) : String :=
  let n := roundHalfEven (q * 100)
  (if n < 0 then "-" else "") ++ natRepr (n.natAbs / 100) ++ "." ++ twoDigits (n.natAbs % 100)

/-- Zero-pad the decimal rendering of `n` on the left to width `w`
(Python `f'\x7bn:03d\x7d'` and `strftime` zero padding, for `n ≥ 0`). -/
def padNat (w : Nat) (n : Nat) : String :=
  let s := natRepr n
  String.mk (List.replicate (w - s.length) '0') ++ s

/-- Python `datetime` restricted to the fields the code formats. -/
structure PyDateTime where
  year : Nat
  month : Nat
  day : Nat
  hour : Nat
  minute : Nat
deriving DecidableEq

/-- Python `f'\x7bd:%Y-%m-%d %H:%M\x7d'`. -/
def fmtDateTime (d : PyDateTime) : String :=
  padNat 4 d.year ++ "-" ++ padNat 2 d.month ++ "-" ++ padNat 2 d.day ++ " " ++
    padNat 2 d.hour ++ ":" ++ padNat 2 d.minute

/-! ## Table renderer (`_pl_to_markdown_table`, report.py lines 24-67) -/

/-- A scalar cell value as produced by `df.rows()`: Python `None`, `int`,
`float` (modelled as an exact rational) or `str`. -/
inductive PyVal where
  | vNone : PyVal
  | vInt : Int → PyVal
  | vFloat : ℚ → PyVal
  | vStr : String → PyVal
deriving DecidableEq

/-- View a value as a number, as Python numeric format specs do; `none` models
the `TypeError`/`ValueError` Python raises on non-numeric operands. -/
def asRat : PyVal → Option ℚ
  | .vInt n => some (n : ℚ)
  | .vFloat q => some q
  | _ => none

/-- Python `str(value)`.  Non-integral floats are rendered by Python with the
shortest round-trip repr, which no claim exercises; integral floats get the
`x.0` form. -/
def pyStr : PyVal → String
  | .vNone => "None"
  | .vInt n => intRepr n
  | .vFloat q => if q.den = 1 then intRepr q.num ++ ".0" else intRepr q.num
  | .vStr s => s

/-- Built-in formatter `'percent'`: `lambda x: f'\x7bx:,.2f\x7d%'`. -/
def fmtPercent (v : PyVal) : Option String :=
  (asRat v).map (fun q => commaFixed2 q ++ "%")

/-- Built-in formatter `'percent100'`: `lambda x: f'\x7b100 * x:,.2f\x7d%'`. -/
def fmtPercent100 (v : PyVal) : Option String :=
  (asRat v).map (fun q => commaFixed2 (100 * q) ++ "%")

/-- Built-in formatter `'round'`: `lambda x: f'\x7bx:,.2f\x7d'`. -/
def fmtRound (v : PyVal) : Option String :=
  (asRat v).map (fun q => commaFixed2 q)

/-- Built-in formatter `'round_int'`: `lambda x: f'\x7bx:,\x7d'`.  On an integral
float Python renders `1,234.0`; non-integral floats (never produced by the
renderer's type-default dispatch) are not modelled. -/
def fmtRoundInt (v : PyVal) : Option String :=
  match v with
  | .vInt n => some (commaInt n)
  | .vFloat q => if q.den = 1 then some (commaInt q.num ++ ".0") else none
  | _ => none

/-- The `default_formatters` dict (report.py lines 30-35). -/
def defaultFormatters (name : String) : Option (PyVal → Option String) :=
  if name = "percent" then some fmtPercent
  else if name = "percent100" then some fmtPercent100
  else if name = "round" then some fmtRound
  else if name = "round_int" then some fmtRoundInt
  else none

/-- A value of the caller's `formatters` dict: either the name of a built-in
formatter or a caller-supplied formatting function (modelled total). -/
inductive FmtSpec where
  | named : String → FmtSpec
  | fn : (PyVal → String) → FmtSpec

/-- Resolution `default_formatters.get(v, v)` (line 38) followed by the later
call `formatters[k](value)`: a known name resolves to the built-in, an unknown
name is kept as a string whose call raises `TypeError` (modelled as `none`). -/
def resolveFmt : FmtSpec → PyVal → Option String
  | .named s => fun v =>
    match defaultFormatters s with
    | some f => f v
    | none => none
  | .fn f => fun v => some (f v)

/-- Keys of the `formatters` dict: column names (`str`) or positions (`int`). -/
def FmtKey := String ⊕ Nat

/-- The caller's `formatters` dict as a partial map. -/
def FmtMap := FmtKey → Option FmtSpec

/-- An absent `formatters` argument (`formatters or dict()`). -/
def noFmts : FmtMap := fun _ => none

/-- A tabular data view: ordered column names, a dtype string per column name
(`str(df[col].dtype)`), and rows of nullable scalar values. -/
structure Table where
  columns : List String
  dtype : String → String
  rows : List (List PyVal)

/-- One rendered cell (the body of the loop at report.py lines 51-64):
name-keyed formatter, else position-keyed formatter, else dtype defaults,
else `str(value)`; a `None` value short-circuits to the empty string. -/
def renderCell (fmts : FmtMap) (dtype : String) (colname : String) (j : Nat)
    (v : PyVal) : Option String :=
  match v with
  | .vNone => some ""
  | _ =>
    match fmts (Sum.inl colname) with
    | some spec => resolveFmt spec v
    | none =>
      match fmts (Sum.inr j) with
      | some spec => resolveFmt spec v
      | none =>
        if pyStartsWith dtype "Int" || pyStartsWith dtype "UInt" then fmtRoundInt v
        else if pyStartsWith dtype "Float" then fmtRound v
        else some (pyStr v)

/-- Option-valued `mapM` over a list, stopping at the first failure (a Python
exception aborts the enclosing loop). -/
def mapMO (f : α → Option β) : List α → Option (List β)
  | [] => some []
  | a :: l =>
    match f a, mapMO f l with
    | some b, some l' => some (b :: l')
    | _, _ => none

/-- One rendered data row: `enumerate(zip(row, headers))` drives `renderCell`,
and the cells are joined as `'| ' + ' | '.join(cells) + ' |'`. -/
def renderLine (fmts : FmtMap) (dtype : String → String) (headers : List String)
    (row : List PyVal) : Option String :=
  (mapMO (fun p => renderCell fmts (dtype p.2.2) p.2.2 p.1 p.2.1)
      (row.zip headers).enum).map
    (fun cells => "| " ++ pyJoin " | " cells ++ " |")

/-- The alignment tokens (report.py lines 40-45): `:--` for position 0 when the
flag is set, `--:` otherwise. -/
def alignTokens (m : Nat) (alignFirstColLeft : Bool) : List String :=
  (List.range m).map (fun i => if i = 0 && alignFirstColLeft then ":--" else "--:")

/-- Embedding of `_pl_to_markdown_table`: header line, alignment line, one line
per data row, joined with newlines.  `none` models a raised exception. -/
def plToMarkdownTable (df : Table) (alignFirstColLeft : Bool := true)
    (fmts : FmtMap := noFmts) : Option String :=
  let headers := df.columns
  let headerLine := "| " ++ pyJoin " | " headers ++ " |"
  let sepLine := "| " ++ pyJoin " | " (alignTokens headers.length alignFirstColLeft) ++ " |"
  (mapMO (renderLine fmts df.dtype headers) df.rows).map
    (fun dataLines => pyJoin "\n" (headerLine :: sepLine :: dataLines))

/-! ## Document builder (`Report`, report.py lines 100-295) -/

/-- The immutable configuration fields of a `Report`. -/
structure ReportCfg where
  title : String := "Report"
  author : Option String := none
  created : PyDateTime
  outDir : String := "report_out"
  mdFilename : String := "report.md"
  assetsDirname : String := "assets"
deriving DecidableEq

/-- The mutable state of a `Report`: the ordered parts and the figure counter. -/
structure DocState where
  parts : List String
  imageCounter : Nat
deriving DecidableEq

/-- Python truthiness of `self.author` (`None` and `''` are falsy). -/
def authorTruthy : Option String → Bool
  | none => false
  | some a => a ≠ ""

/-- Python `self.author or ''`. -/
def authorOrEmpty : Option String → String
  | none => ""
  | some a => a

/-- Embedding of `add_heading`: clamp the level to `[1, 6]`, append
`'#' * level + ' ' + text`. -/
def addHeading (st : DocState) (text : String) (level : Int := 2) : DocState :=
  let lvl := max 1 (min level 6)
  { st with parts := st.parts ++ [String.mk (List.replicate lvl.toNat '#') ++ " " ++ text] }

/-- Embedding of `add_paragraph`: append `str(text)` (already a string). -/
def addParagraph (st : DocState) (text : String) : DocState :=
  { st with parts := st.parts ++ [text] }

/-- Embedding of `add_markdown`: append `md.rstrip()`. -/
def addMarkdown (st : DocState) (md : String) : DocState :=
  { st with parts := st.parts ++ [pyRstrip md] }

/-- Embedding of `add_table`: a level-3 heading named `name` followed by the
rendered table; `none` models an exception escaping from the renderer. -/
def addTable (st : DocState) (name : String) (table : Table)
    (alignFirstColLeft : Bool := true) : Option DocState :=
  (plToMarkdownTable table alignFirstColLeft noFmts).map
    (fun md => addMarkdown (addHeading st name 3) md)

/-- Pandoc width attribute `f'\x7b\x7b width="\x7bwidth\x7d" \x7d\x7d'` when a width is given. -/
def widthAttr : Option String → String
  | none => ""
  | some w => "\x7b width=\"" ++ w ++ "\" \x7d"

/-- Caption tail `f'\n\n\x7bcaption\x7d'` when a caption is given (`if caption`:
the empty caption is falsy and appends nothing). -/
def captionTail : Option String → String
  | none => ""
  | some c => if c = "" then "" else "\n\n" ++ c

/-- Embedding of `add_image` for a source file with stem `stem` and extension
`ext`; `exists_` stands for the filesystem check, a missing file raises
(`none`).  The copy into the assets directory is a filesystem effect with no
bearing on the document state beyond the embed line. -/
def addImage (cfg : ReportCfg) (st : DocState) (stem ext : String)
    (exists_ : Bool) (caption : Option String := none)
    (width : Option String := none) : Option DocState :=
  if !exists_ then none
  else
    let safeName := pySlugify stem ++ pyLower ext
    some { st with parts := st.parts ++
      ["![" ++ stem ++ "](" ++ cfg.assetsDirname ++ "/" ++ safeName ++ ")" ++
        widthAttr width ++ captionTail caption] }

/-- A figure object passed to `add_plot`: a Matplotlib figure or axes, a Plotly
figure whose kaleido export succeeds or fails, or an unsupported object. -/
inductive PyFig where
  | mpl : PyFig
  | plotlyOk : PyFig
  | plotlyBroken : PyFig
  | other : PyFig
deriving DecidableEq

/-- Whether `add_plot` succeeds on this figure (Matplotlib save, or Plotly
export with kaleido working); everything else raises `TypeError`. -/
def figOk : PyFig → Bool
  | .mpl => true
  | .plotlyOk => true
  | _ => false

/-- Embedding of `add_plot` (report.py lines 173-198).  The counter is
incremented first; on an unsupported or failing figure the `TypeError`
propagates (`none` filename) but the incremented counter remains, and no part
is appended.  On success the filename `figure-NNN.png` is returned. -/
def addPlot (cfg : ReportCfg) (st : DocState) (fig : PyFig)
    (caption : Option String := none) (width : Option String := none) :
    DocState × Option String :=
  let c := st.imageCounter + 1
  let filename := "figure-" ++ padNat 3 c ++ ".png"
  let part := "![Figure " ++ natRepr c ++ "](" ++ cfg.assetsDirname ++ "/" ++ filename ++ ")" ++
    widthAttr width ++ captionTail caption
  if figOk fig then
    ({ parts := st.parts ++ [part], imageCounter := c }, some filename)
  else
    ({ st with imageCounter := c }, none)

/-- Embedding of `__post_init__` (report.py lines 112-120): a fresh report
holds the level-1 title heading and the generated/author metadata line. -/
def mkReportState (cfg : ReportCfg) : DocState :=
  let st : DocState := { parts := [], imageCounter := 0 }
  let st := addHeading st cfg.title 1
  let meta := ["Generated: " ++ fmtDateTime cfg.created] ++
    (if authorTruthy cfg.author then ["Author: " ++ authorOrEmpty cfg.author] else [])
  addParagraph st (pyJoin " | " meta)

/-- The `content` list built by the loop in `to_markdown` (report.py lines
205-211): each part right-stripped, with an empty string pushed after every
part except the last (the loop guard `i < len(self._parts) - 1`). -/
def mdContentList : List String → List String
  | [] => []
  | [p] => [pyRstrip p]
  | p :: rest => pyRstrip p :: "" :: mdContentList rest

/-- Embedding of `to_markdown`: `'\n'.join(content)`. -/
def toMarkdown (parts : List String) : String :=
  pyJoin "\n" (mdContentList parts)

/-- Embedding of `save_markdown`: the bytes written to the markdown file are
`self.to_markdown() + '\n'`. -/
def savedMarkdownContent (parts : List String) : String :=
  toMarkdown parts ++ "\n"

/-! ## Paths and `compile` (report.py lines 218-305) -/

/-- The final path component (after the last `/`), as `PurePosixPath.name`. -/
def pathName (l : List Char) : List Char :=
  (l.reverse.takeWhile (· ≠ '/')).reverse

/-- Embedding of `PurePath.suffix` (CPython): the part of the final component
from its last dot, empty when the dot is absent, leading, or trailing. -/
def pySuffixL (l : List Char) : List Char :=
  let rev := (pathName l).reverse
  let j := (rev.takeWhile (· ≠ '.')).length
  if 0 < j ∧ j + 1 < rev.length then (rev.take (j + 1)).reverse else []

/-- Python `Path(p).suffix` on a path string. -/
def pySuffix (p : String) : String := String.mk (pySuffixL p.data)

/-- Embedding of `PurePath.with_suffix` for a well-formed new suffix
(`'.' + fmt`): drop the old suffix, append the new one. -/
def pyWithSuffix (p : String) (suffix : String) : String :=
  String.mk (p.data.take (p.data.length - (pySuffixL p.data).length)) ++ suffix

/-- Python `str.lstrip('.')`. -/
def lstripDots (s : String) : String := String.mk (s.data.dropWhile (· = '.'))

/-- Path join `dir / name` (POSIX). -/
def pathJoin (dir name : String) : String := dir ++ "/" ++ name

/-- Python `_slugify(self.title) or 'report'` (`_slugify` never returns an
empty string, but the fallback is transcribed faithfully). -/
def slugOrReport (title : String) : String :=
  if pySlugify title = "" then "report" else pySlugify title

/-- Embedding of the format/output-path resolution in `compile` (report.py
lines 249-258).  Returns the final output path and the final target format
`to`. -/
def resolveOutputAndFormat (title outDir : String) (output? : Option String)
    (to? : Option String) : String × String :=
  let output := match output? with
    | some p => p
    | none =>
      let base := slugOrReport title
      let ext := match to? with
        | none => ".pdf"
        | some t => if pyLower t = "pdf" then ".pdf" else "." ++ pyLower t
      pathJoin outDir (base ++ ext)
  match to? with
  | none => (output, pyLower (lstripDots (pySuffix output)))
  | some t =>
    if pyLower (pySuffix output) ≠ "." ++ t then (pyWithSuffix output ("." ++ t), t)
    else (output, t)

/-- Embedding of `wsl_str` (report.py lines 298-305) for a string mount: a
truthy mount rewrites a resolved Windows path `C:\dir\file` to
`/mnt/c/dir/file`.  `Path.resolve()` is modelled as the identity (the paths in
scope are treated as already absolute). -/
def wslStr (p : String) (mnt : Option String) : String :=
  match mnt with
  | none => p
  | some m =>
    if m = "" then p
    else
      match p.data with
      | [] => "/" ++ m ++ "/"
      | drive :: rest =>
        "/" ++ m ++ "/" ++ String.mk [pyLowerChar drive] ++
          String.mk ((rest.drop 1).map (fun c => if c = '\\' then '/' else c))

/-- The execution environment: which executables `shutil.which` finds, and
whether the converter subprocess exits successfully. -/
structure CompileEnv where
  available : String → Bool
  runSucceeds : Bool

/-- Embedding of `Report._pick_pdf_engine`: first available of the fixed probe
list. -/
def pickPdfEngine (env : CompileEnv) : Option String :=
  (["wkhtmltopdf", "weasyprint", "xelatex", "pdflatex"].filter env.available).head?

/-- The Pandoc argument vector built by `compile` (report.py lines 260-277).
Entries are `Option String` because the engine slot holds `Option.none`
exactly when the Python variable `engine` is `None`; `engine?` is `some e`
when the target format is pdf (so the two `--pdf-engine` entries are
appended, with engine value `e`), `none` otherwise. -/
def buildCmd (cfg : ReportCfg) (outputPath : String) (engine? : Option (Option String))
    (extraArgs : List String) (wslMount : Option String) : List (Option String) :=
  let mdPath := pathJoin cfg.outDir cfg.mdFilename
  let assetsPath := pathJoin cfg.outDir cfg.assetsDirname
  ([some "pandoc", some "-s", some "--from", some "gfm",
    some (wslStr mdPath wslMount), some "-o", some (wslStr outputPath wslMount),
    some "--resource-path", some (wslStr assetsPath wslMount),
    some "-M", some ("title=" ++ cfg.title),
    some "-M", some ("author=" ++ authorOrEmpty cfg.author),
    some "-M", some ("date=" ++ fmtDateTime cfg.created)] ++
   (match engine? with
    | some engine => [some "--pdf-engine", engine]
    | none => []) ++
   extraArgs.map some)

/-- Errors `compile` can raise: Pandoc missing, no PDF engine found, the
`TypeError` from joining or executing a command vector containing `None`, and
a nonzero converter exit status. -/
inductive CompileError where
  | pandocMissing : CompileError
  | noEngineFound : CompileError
  | typeErrorNoneInCmd : CompileError
  | externalToolFailed : CompileError
deriving DecidableEq, Repr

/-- What `compile` did: printed the joined command, or ran the argument
vector. -/
inductive CompileOutcome where
  | printed : String → CompileOutcome
  | ran : List String → CompileOutcome
deriving DecidableEq, Repr

/-- Python `' '.join(cmd)` on a list that may contain `None`: raises
`TypeError` (`none`) when it does. -/
def joinCmd (l : List (Option String)) : Option String :=
  (mapMO id l).map (pyJoin " ")

/-- Python `pdf_engine or self._pick_pdf_engine()` (report.py line 269). -/
def resolveEngine (env : CompileEnv) (pdfEngine : Option String) : Option String :=
  match pdfEngine with
  | some e => some e
  | none => pickPdfEngine env

/-- The `--pdf-engine` decision: `some (engine-or-None)` exactly when the
target format is pdf. -/
def enginePlan (env : CompileEnv) (toFmt : String) (pdfEngine : Option String) :
    Option (Option String) :=
  if toFmt = "pdf" then some (resolveEngine env pdfEngine) else none

/-- Final step of `compile`: print the joined command, or execute the argument
vector (report.py lines 279-295); joining or executing a vector containing
`None` raises `TypeError`. -/
def runOrPrint (env : CompileEnv) (cmd : List (Option String)) (printOnly : Bool)
    (output : String) : Except CompileError (CompileOutcome × String) :=
  if printOnly then
    match joinCmd cmd with
    | some s => .ok (.printed s, output)
    | none => .error .typeErrorNoneInCmd
  else
    match mapMO id cmd with
    | some argv =>
      if env.runSucceeds then .ok (.ran argv, output) else .error .externalToolFailed
    | none => .error .typeErrorNoneInCmd

/-- Embedding of `Report.compile` (report.py lines 225-295).  Side effects
(saving the markdown, opening the result) are beyond the returned value; the
result is the outcome paired with the returned output path. -/
def compileReport (env : CompileEnv) (cfg : ReportCfg) (output? : Option String)
    (to? : Option String) (pdfEngine : Option String) (extraArgs : List String)
    (printCommandOnly : Bool) (wslMount : Option String) :
    Except CompileError (CompileOutcome × String) :=
  let printOnly := printCommandOnly || wslMount.isSome
  if !env.available "pandoc" && !printOnly then .error .pandocMissing
  else
    let output := (resolveOutputAndFormat cfg.title cfg.outDir output? to?).1
    let toFmt := (resolveOutputAndFormat cfg.title cfg.outDir output? to?).2
    let engine? := enginePlan env toFmt pdfEngine
    if engine? = some none ∧ !printOnly then .error .noEngineFound
    else runOrPrint env (buildCmd cfg output engine? extraArgs wslMount) printOnly output

/-! ## Operation sequences over a report -/

/-- One caller-visible mutating operation on a report. -/
inductive Op where
  | heading : String → Int → Op
  | paragraph : String → Op
  | markdown : String → Op
  | table : String → Table → Bool → Op
  | image : String → String → Bool → Option String → Option String → Op
  | plot : PyFig → Option String → Option String → Op

/-- Run one operation: `none` models an exception escaping to the caller (in
which case any later operations never execute); a successful `add_plot`
additionally reports the figure filename it generated. -/
def stepOp (cfg : ReportCfg) (st : DocState) : Op → Option (DocState × List String)
  | .heading t lvl => some (addHeading st t lvl, [])
  | .paragraph t => some (addParagraph st t, [])
  | .markdown t => some (addMarkdown st t, [])
  | .table name df alignLeft => (addTable st name df alignLeft).map (fun st' => (st', []))
  | .image stem ext exists_ cap w => (addImage cfg st stem ext exists_ cap w).map (fun st' => (st', []))
  | .plot fig cap w =>
    ((addPlot cfg st fig cap w).2).map (fun filename => ((addPlot cfg st fig cap w).1, [filename]))

/-- Run a list of operations in order, collecting the figure filenames
produced by the `add_plot` calls; `none` when any operation raises. -/
def runOps (cfg : ReportCfg) (st : DocState) : List Op → Option (DocState × List String)
  | [] => some (st, [])
  | op :: rest =>
    (stepOp cfg st op).bind (fun p =>
      (runOps cfg p.1 rest).map (fun q => (q.1, p.2 ++ q.2)))

/-! ## Spec-side definitions

These transcribe the specification's words (not the code) and exist to be
compared against the embedded code. -/

/-- Cell formatting as the specification words it: strict precedence of
name-keyed formatter, then position-keyed formatter, then the
thousands-separated integer default for integer-typed columns, then the
two-decimal thousands-separated default for floating-point columns, then plain
string conversion; a `None` value always yields the empty cell. -/
def renderCellSpec (fmts : FmtMap) (dtype : String) (colname : String) (j : Nat)
    (v : PyVal) : Option String :=
  if v = .vNone then some ""
  else match fmts (Sum.inl colname) with
  | some byName => resolveFmt byName v
  | none =>
    match fmts (Sum.inr j) with
    | some byPos => resolveFmt byPos v
    | none =>
      if pyStartsWith dtype "Int" || pyStartsWith dtype "UInt" then fmtRoundInt v
      else if pyStartsWith dtype "Float" then fmtRound v
      else some (pyStr v)

/-! ## Concrete fixtures used by witnesses and counterexamples -/

/-- A concrete report configuration (mirroring the repository's test fixture). -/
def cfgEx : ReportCfg :=
  ReportCfg.mk "Test Report" (some "Test Author") ⟨2025, 1, 2, 3, 4⟩ "out" "report.md" "assets"

/-- An environment with Pandoc but no PDF engine installed. -/
def envNoEngine : CompileEnv := CompileEnv.mk (fun e => e = "pandoc") true

/-- The end-to-end example table of the specification: a text column and an
integer column with three rows. -/
def dfExample : Table :=
  Table.mk ["category", "value"]
    (fun c => if c = "value" then "Int64" else "String")
    [[.vStr "A", .vInt 1], [.vStr "B", .vInt 2], [.vStr "C", .vInt 3]]

/-- A table whose single column name contains a newline character. -/
def dfNewlineName : Table :=
  Table.mk ["a\nb"] (fun _ => "String") []

/-- A value is consistent with a column's dtype string: integer dtypes hold
ints or nulls, float dtypes hold floats or nulls (what polars guarantees for
`df.rows()`), any other dtype is unconstrained. -/
def dtypeOkB (dt : String) : PyVal → Bool
  | .vNone => true
  | .vInt _ => !pyStartsWith dt "Float"
  | .vFloat _ => !(pyStartsWith dt "Int" || pyStartsWith dt "UInt")
  | .vStr _ => !(pyStartsWith dt "Int" || pyStartsWith dt "UInt" || pyStartsWith dt "Float")

/-- Every cell of the table is consistent with its column's dtype. -/
def WellTypedTable (df : Table) : Prop :=
  ∀ row ∈ df.rows, ∀ p ∈ row.zip df.columns, dtypeOkB (df.dtype p.2) p.1 = true

/-- A string cell contains no newline; other values are unconstrained (their
renderings never contain one). -/
def valNoNewline : PyVal → Bool
  | .vStr s => decide ('\n' ∉ s.data)
  | _ => true

/-! ## Helper lemmas -/

theorem pyJoin_cons₂ (sep x y : String) (l : List String) :
    pyJoin sep (x :: y :: l) = x ++ sep ++ pyJoin sep (y :: l) := rfl

theorem mdContentList_cons (q : String) (rest : List String) :
    ∃ t, mdContentList (q :: rest) = pyRstrip q :: t := by
  cases rest <;> exact ⟨_, rfl⟩

theorem toMarkdown_eq_join (parts : List String) :
    toMarkdown parts = pyJoin "\n\n" (parts.map pyRstrip) := by
  induction parts using mdContentList.induct with
  | case1 => rfl
  | case2 p => rfl
  | case3 p q hq ih =>
    obtain ⟨a, rest, rfl⟩ := List.exists_cons_of_ne_nil (fun h => hq h)
    obtain ⟨t, ht⟩ := mdContentList_cons a rest
    have h1 : toMarkdown (p :: a :: rest) =
        pyRstrip p ++ "\n" ++ ("" ++ "\n" ++ pyJoin "\n" (mdContentList (a :: rest))) := by
      simp only [toMarkdown, mdContentList, ht, pyJoin_cons₂]
    rw [List.map_cons, List.map_cons, pyJoin_cons₂, ← List.map_cons, ← ih, h1, toMarkdown]
    apply String.ext
    simp [List.append_assoc]

/-! ## Claim C8: document serialization and persisted content -/

/-- Claim C8: serializing a document of K parts joins the right-trimmed parts
with exactly K-1 blank-line separators (a single blank line, i.e. a `"\n\n"`
separator, between each pair of consecutive parts), and the persisted markdown
file content is the serialized document followed by exactly one trailing
newline. -/
theorem c8_serialization (parts : List String) :
    toMarkdown parts = pyJoin "\n\n" (parts.map pyRstrip) ∧
    savedMarkdownContent parts = toMarkdown parts ++ "\n" :=
  ⟨toMarkdown_eq_join parts, rfl⟩

/-! ## Claim C1: output-path and format resolution in `compile` -/

/-- Counterexample to claim C1 as stated: with the explicit output path
`custom.docx` and the explicit format name `pdf`, the claim predicts that the
output path's extension wins (target format `docx`); the code instead keeps
format `pdf` and rewrites the output path to `custom.pdf`. -/
theorem c1_counterexample :
    resolveOutputAndFormat "Report" "report_out" (some "custom.docx") (some "pdf") =
      ("custom.pdf", "pdf") ∧
    (resolveOutputAndFormat "Report" "report_out" (some "custom.docx") (some "pdf")).2 ≠
      "docx" := by
  constructor
  · rfl
  · decide

/-! ## Character-level lemmas for the slugifier -/

theorem char_toNat_ofNat (n : Nat) (h : n < 55296) : (Char.ofNat n).toNat = n := by
  have hv : n.isValidChar := Or.inl h
  rw [Char.ofNat, dif_pos hv]
  rfl

theorem isUpper_iff (c : Char) : c.isUpper = true ↔ 65 ≤ c.toNat ∧ c.toNat ≤ 90 := by
  simp [Char.isUpper, UInt32.le_def, BitVec.le_def, Char.toNat, UInt32.toNat]

theorem pyLowerChar_idem (c : Char) : pyLowerChar (pyLowerChar c) = pyLowerChar c := by
  by_cases h : 65 ≤ c.toNat ∧ c.toNat ≤ 90
  · have hd : pyLowerChar c = Char.ofNat (c.toNat + 32) := by rw [pyLowerChar, if_pos h]
    have hb : c.toNat + 32 < 55296 := by omega
    have ht : (Char.ofNat (c.toNat + 32)).toNat = c.toNat + 32 := char_toNat_ofNat _ hb
    rw [hd, pyLowerChar, if_neg]
    rw [ht]; omega
  · have hd : pyLowerChar c = c := by rw [pyLowerChar, if_neg h]
    rw [hd, hd]

theorem pyLowerChar_of_not_word (c : Char) (h : isWordChar c = false) :
    pyLowerChar c = c := by
  rw [pyLowerChar, if_neg]
  intro hc
  have hu : c.isUpper = true := (isUpper_iff c).mpr hc
  simp [isWordChar, Char.isAlphanum, Char.isAlpha, hu] at h

theorem not_space_of_wordOrHyphen (c : Char) (h : isWordOrHyphen c = true) :
    isPySpace c = false := by
  cases hc : isPySpace c with
  | false => rfl
  | true =>
    exfalso
    simp only [isPySpace, Bool.or_eq_true, decide_eq_true_eq] at hc
    rcases hc with ((((rfl | rfl) | rfl) | rfl) | rfl) | rfl <;> exact absurd h (by decide)

/-! ## Membership lemmas for the slugifier stages -/

theorem mem_pyStripWith {p : Char → Bool} {l : List Char} {c : Char}
    (h : c ∈ pyStripWith p l) : c ∈ l := by
  unfold pyStripWith at h
  have h1 := List.dropWhile_subset _ h
  rw [List.mem_reverse] at h1
  have h2 := List.dropWhile_subset _ h1
  rwa [List.mem_reverse] at h2

theorem mem_collapseNonWord (l : List Char) :
    ∀ c ∈ collapseNonWord l, isWordOrHyphen c = true := by
  induction l with
  | nil => intro c hc; simp [collapseNonWord] at hc
  | cons a t ih =>
    intro c hc
    cases t with
    | nil =>
      rw [collapseNonWord] at hc
      by_cases ha : isWordOrHyphen a
      · rw [if_pos ha] at hc
        simp only [List.mem_singleton] at hc
        subst hc; exact ha
      · rw [if_neg ha] at hc
        simp only [List.mem_singleton] at hc
        subst hc; decide
    | cons b t2 =>
      rw [collapseNonWord] at hc
      by_cases ha : isWordOrHyphen a
      · rw [if_pos ha] at hc
        rcases List.mem_cons.mp hc with rfl | h2
        · exact ha
        · exact ih c h2
      · rw [if_neg ha] at hc
        by_cases hb : isWordOrHyphen b
        · rw [if_pos hb] at hc
          rcases List.mem_cons.mp hc with rfl | h2
          · decide
          · exact ih c h2
        · rw [if_neg hb] at hc
          exact ih c hc

theorem mem_collapseNonWord_src (l : List Char) :
    ∀ c ∈ collapseNonWord l, c ∈ l ∨ c = '-' := by
  induction l with
  | nil => intro c hc; simp [collapseNonWord] at hc
  | cons a t ih =>
    intro c hc
    cases t with
    | nil =>
      rw [collapseNonWord] at hc
      by_cases ha : isWordOrHyphen a
      · rw [if_pos ha] at hc
        simp only [List.mem_singleton] at hc
        subst hc; exact Or.inl (List.mem_cons_self _ _)
      · rw [if_neg ha] at hc
        simp only [List.mem_singleton] at hc
        subst hc; exact Or.inr rfl
    | cons b t2 =>
      rw [collapseNonWord] at hc
      by_cases ha : isWordOrHyphen a
      · rw [if_pos ha] at hc
        rcases List.mem_cons.mp hc with rfl | h2
        · exact Or.inl (List.mem_cons_self _ _)
        · rcases ih c h2 with h3 | h3
          · exact Or.inl (List.mem_cons_of_mem _ h3)
          · exact Or.inr h3
      · rw [if_neg ha] at hc
        by_cases hb : isWordOrHyphen b
        · rw [if_pos hb] at hc
          rcases List.mem_cons.mp hc with rfl | h2
          · exact Or.inr rfl
          · rcases ih c h2 with h3 | h3
            · exact Or.inl (List.mem_cons_of_mem _ h3)
            · exact Or.inr h3
        · rw [if_neg hb] at hc
          rcases ih c hc with h3 | h3
          · exact Or.inl (List.mem_cons_of_mem _ h3)
          · exact Or.inr h3

theorem mem_collapseHyphens (l : List Char) :
    ∀ c ∈ collapseHyphens l, c ∈ l := by
  induction l with
  | nil => intro c hc; simp [collapseHyphens] at hc
  | cons a t ih =>
    intro c hc
    cases t with
    | nil =>
      rw [collapseHyphens] at hc
      simp only [List.mem_singleton] at hc
      subst hc; exact List.mem_cons_self _ _
    | cons b t2 =>
      rw [collapseHyphens] at hc
      by_cases hab : a = '-' ∧ b = '-'
      · rw [if_pos hab] at hc
        exact List.mem_cons_of_mem _ (ih c hc)
      · rw [if_neg hab] at hc
        rcases List.mem_cons.mp hc with rfl | h2
        · exact List.mem_cons_self _ _
        · exact List.mem_cons_of_mem _ (ih c h2)

theorem noTwoHyphens_symm {a b : Char} (h : noTwoHyphens a b) : noTwoHyphens b a :=
  fun hc => h ⟨hc.2, hc.1⟩

theorem head?_dropWhile_false {p : Char → Bool} {l : List Char} {x : Char}
    (hx : (l.dropWhile p).head? = some x) : p x = false := by
  have h0 := List.head?_dropWhile_not p l
  rw [hx] at h0
  exact h0

theorem chain'_reverse_noTwoHyphens {l : List Char} (h : List.Chain' noTwoHyphens l) :
    List.Chain' noTwoHyphens l.reverse := by
  rw [List.chain'_reverse]
  exact h.imp (fun _ _ hab => noTwoHyphens_symm hab)

theorem head?_collapseHyphens (l : List Char) : (collapseHyphens l).head? = l.head? := by
  induction l with
  | nil => rfl
  | cons a t ih =>
    cases t with
    | nil => rw [collapseHyphens]
    | cons b t2 =>
      rw [collapseHyphens]
      by_cases hab : a = '-' ∧ b = '-'
      · rw [if_pos hab, ih]
        simp [hab.1, hab.2]
      · rw [if_neg hab]; rfl

theorem chain'_collapseHyphens (l : List Char) :
    List.Chain' noTwoHyphens (collapseHyphens l) := by
  induction l with
  | nil => exact List.chain'_nil
  | cons a t ih =>
    cases t with
    | nil => rw [collapseHyphens]; exact List.chain'_singleton _
    | cons b t2 =>
      rw [collapseHyphens]
      by_cases hab : a = '-' ∧ b = '-'
      · rw [if_pos hab]; exact ih
      · rw [if_neg hab]
        refine List.chain'_cons'.mpr ⟨?_, ih⟩
        intro y hy
        rw [head?_collapseHyphens, Option.mem_def] at hy
        simp only [List.head?_cons, Option.some.injEq] at hy
        subst hy
        exact fun hc => hab hc

theorem dropWhile_eq_self_of_head {p : Char → Bool} {l : List Char}
    (h : ∀ x ∈ l.head?, p x = false) : l.dropWhile p = l := by
  cases l with
  | nil => rfl
  | cons a t =>
    apply List.dropWhile_cons_of_neg
    simp [h a rfl]

theorem dropWhile_eq_self_of_all {p : Char → Bool} {l : List Char}
    (h : ∀ c ∈ l, p c = false) : l.dropWhile p = l := by
  apply dropWhile_eq_self_of_head
  intro x hx
  cases l with
  | nil => simp at hx
  | cons a t =>
    simp only [List.head?_cons, Option.mem_def, Option.some.injEq] at hx
    subst hx
    exact h _ (List.mem_cons_self _ _)

theorem pyStripWith_eq_self_of_all {p : Char → Bool} {l : List Char}
    (h : ∀ c ∈ l, p c = false) : pyStripWith p l = l := by
  unfold pyStripWith
  rw [dropWhile_eq_self_of_all (fun c hc => h c (List.mem_reverse.mp hc)),
    List.reverse_reverse, dropWhile_eq_self_of_all h]

theorem pyStripWith_eq_self_of_ends {p : Char → Bool} {l : List Char}
    (hh : ∀ x ∈ l.head?, p x = false) (hl : ∀ x ∈ l.getLast?, p x = false) :
    pyStripWith p l = l := by
  unfold pyStripWith
  have h1 : l.reverse.dropWhile p = l.reverse := by
    apply dropWhile_eq_self_of_head
    intro x hx
    rw [List.head?_reverse] at hx
    exact hl x hx
  rw [h1, List.reverse_reverse, dropWhile_eq_self_of_head hh]

theorem chain'_pyStripWith {l : List Char} (p : Char → Bool)
    (h : List.Chain' noTwoHyphens l) :
    List.Chain' noTwoHyphens (pyStripWith p l) := by
  unfold pyStripWith
  have h1 := (chain'_reverse_noTwoHyphens h).suffix (List.dropWhile_suffix p)
  have h2 := chain'_reverse_noTwoHyphens h1
  exact h2.suffix (List.dropWhile_suffix p)

theorem head?_pyStripWith {p : Char → Bool} {l : List Char} :
    ∀ x ∈ (pyStripWith p l).head?, p x = false := by
  intro x hx
  unfold pyStripWith at hx
  rw [Option.mem_def] at hx
  exact head?_dropWhile_false hx

theorem getLast?_pyStripWith {p : Char → Bool} {l : List Char} :
    ∀ x ∈ (pyStripWith p l).getLast?, p x = false := by
  intro x hx
  unfold pyStripWith at hx
  set m := (l.reverse.dropWhile p).reverse with hm
  by_cases hres : m.dropWhile p = []
  · rw [hres] at hx; simp at hx
  · obtain ⟨t, ht⟩ := List.dropWhile_suffix (l := m) p
    have hlast : m.getLast? = (m.dropWhile p).getLast? := by
      conv_lhs => rw [← ht]
      rw [List.getLast?_append]
      cases hcase : (m.dropWhile p).getLast? with
      | none =>
        exfalso
        exact hres (List.getLast?_eq_none_iff.mp hcase)
      | some y => rfl
    rw [← hlast] at hx
    rw [hm, List.getLast?_reverse, Option.mem_def] at hx
    exact head?_dropWhile_false hx

/-! ## Identity of the slugifier stages on already-slugified text -/

theorem map_pyLowerChar_eq_self {l : List Char} (h : ∀ c ∈ l, pyLowerChar c = c) :
    l.map pyLowerChar = l := by
  induction l with
  | nil => rfl
  | cons a t ih =>
    rw [List.map_cons, h a (List.mem_cons_self _ _),
      ih (fun c hc => h c (List.mem_cons_of_mem _ hc))]

theorem collapseNonWord_eq_self (l : List Char)
    (h : ∀ c ∈ l, isWordOrHyphen c = true) : collapseNonWord l = l := by
  induction l with
  | nil => rfl
  | cons a t ih =>
    cases t with
    | nil => rw [collapseNonWord, if_pos (h a (List.mem_cons_self _ _))]
    | cons b t2 =>
      rw [collapseNonWord, if_pos (h a (List.mem_cons_self _ _)),
        ih (fun c hc => h c (List.mem_cons_of_mem _ hc))]

theorem collapseHyphens_eq_self (l : List Char)
    (h : List.Chain' noTwoHyphens l) : collapseHyphens l = l := by
  induction l with
  | nil => rfl
  | cons a t ih =>
    cases t with
    | nil => rw [collapseHyphens]
    | cons b t2 =>
      obtain ⟨hhead, htail⟩ := List.chain'_cons'.mp h
      have hab : ¬(a = '-' ∧ b = '-') := hhead b rfl
      rw [collapseHyphens, if_neg hab, ih htail]

theorem collapseNonWord_all_hyphen (l : List Char)
    (h : ∀ c ∈ l, isWordChar c = false) : ∀ c ∈ collapseNonWord l, c = '-' := by
  intro c hc
  have hw := mem_collapseNonWord l c hc
  rcases mem_collapseNonWord_src l c hc with h1 | h1
  · have hnw := h c h1
    simp only [isWordOrHyphen, hnw, Bool.false_or, decide_eq_true_eq] at hw
    exact hw
  · exact h1

theorem dropWhile_eq_nil_of_all {p : Char → Bool} {l : List Char}
    (h : ∀ c ∈ l, p c = true) : l.dropWhile p = [] := by
  induction l with
  | nil => rfl
  | cons a t ih =>
    rw [List.dropWhile_cons_of_pos (h a (List.mem_cons_self _ _))]
    exact ih (fun c hc => h c (List.mem_cons_of_mem _ hc))

theorem pyStripWith_all_eq_nil {p : Char → Bool} {l : List Char}
    (h : ∀ c ∈ l, p c = true) : pyStripWith p l = [] := by
  unfold pyStripWith
  rw [dropWhile_eq_nil_of_all (fun c hc => h c (List.mem_reverse.mp hc))]
  rfl

/-! ## Claim C9: the slugifier -/

theorem pySlugify_as_pipeline (s : String) :
    pySlugify s = (if pyStripWith (fun c => c = '-')
        (collapseHyphens (collapseNonWord
          ((pyStripWith isPySpace s.data).map pyLowerChar))) = []
      then "item"
      else String.mk (pyStripWith (fun c => c = '-')
        (collapseHyphens (collapseNonWord
          ((pyStripWith isPySpace s.data).map pyLowerChar))))) := rfl

theorem pySlugify_idem (s : String) : pySlugify (pySlugify s) = pySlugify s := by
  rw [pySlugify_as_pipeline s]
  set l4 := pyStripWith (fun c => c = '-')
    (collapseHyphens (collapseNonWord
      ((pyStripWith isPySpace s.data).map pyLowerChar))) with hl4
  by_cases h4 : l4 = []
  · rw [if_pos h4]; decide
  · rw [if_neg h4]
    have hmemw : ∀ c ∈ l4, isWordOrHyphen c = true := by
      intro c hc
      exact mem_collapseNonWord _ c (mem_collapseHyphens _ c (mem_pyStripWith hc))
    have hlower : ∀ c ∈ l4, pyLowerChar c = c := by
      intro c hc
      rcases mem_collapseNonWord_src _ c (mem_collapseHyphens _ c (mem_pyStripWith hc))
        with h1 | rfl
      · obtain ⟨a, _, rfl⟩ := List.mem_map.mp h1
        exact pyLowerChar_idem a
      · decide
    have hchain : List.Chain' noTwoHyphens l4 := by
      rw [hl4]
      exact chain'_pyStripWith _ (chain'_collapseHyphens _)
    have hhead : ∀ x ∈ l4.head?, (fun c => decide (c = '-')) x = false := by
      rw [hl4]; exact head?_pyStripWith
    have hlast : ∀ x ∈ l4.getLast?, (fun c => decide (c = '-')) x = false := by
      rw [hl4]; exact getLast?_pyStripWith
    have hnospace : ∀ c ∈ l4, isPySpace c = false :=
      fun c hc => not_space_of_wordOrHyphen c (hmemw c hc)
    have s0 : pyStripWith isPySpace l4 = l4 := pyStripWith_eq_self_of_all hnospace
    have s1 : l4.map pyLowerChar = l4 := map_pyLowerChar_eq_self hlower
    have s2 : collapseNonWord l4 = l4 := collapseNonWord_eq_self l4 hmemw
    have s3 : collapseHyphens l4 = l4 := collapseHyphens_eq_self l4 hchain
    have s4 : pyStripWith (fun c => c = '-') l4 = l4 :=
      pyStripWith_eq_self_of_ends hhead hlast
    calc pySlugify (String.mk l4)
        = if pyStripWith (fun c => c = '-')
              (collapseHyphens (collapseNonWord
                ((pyStripWith isPySpace (String.mk l4).data).map pyLowerChar))) = []
          then "item"
          else String.mk (pyStripWith (fun c => c = '-')
              (collapseHyphens (collapseNonWord
                ((pyStripWith isPySpace (String.mk l4).data).map pyLowerChar)))) :=
          pySlugify_as_pipeline _
      _ = String.mk l4 := by
          show (if pyStripWith (fun c => c = '-')
              (collapseHyphens (collapseNonWord
                ((pyStripWith isPySpace l4).map pyLowerChar))) = []
            then "item"
            else _) = _
          rw [s0, s1, s2, s3, s4, if_neg h4]

theorem pySlugify_symbols_item (s : String)
    (h : ∀ c ∈ s.data, isWordChar c = false) : pySlugify s = "item" := by
  rw [pySlugify_as_pipeline s]
  have h0 : ∀ c ∈ pyStripWith isPySpace s.data, isWordChar c = false :=
    fun c hc => h c (mem_pyStripWith hc)
  have s1 : (pyStripWith isPySpace s.data).map pyLowerChar =
      pyStripWith isPySpace s.data :=
    map_pyLowerChar_eq_self (fun c hc => pyLowerChar_of_not_word c (h0 c hc))
  rw [s1]
  have h2 : ∀ c ∈ collapseHyphens (collapseNonWord (pyStripWith isPySpace s.data)),
      decide (c = '-') = true := by
    intro c hc
    have := collapseNonWord_all_hyphen _ h0 c (mem_collapseHyphens _ c hc)
    simp [this]
  rw [pyStripWith_all_eq_nil h2, if_pos rfl]

/-- Claim C9: slugification is idempotent (slugifying an already-slugified
string returns it unchanged), and every input with no word character (in
particular the empty string) slugifies to `"item"`. -/
theorem c9_slugify_idempotent :
    (∀ s : String, pySlugify (pySlugify s) = pySlugify s) ∧
    (∀ s : String, (∀ c ∈ s.data, isWordChar c = false) → pySlugify s = "item") :=
  ⟨pySlugify_idem, pySlugify_symbols_item⟩

/-- Witness for claim C9 at concrete inputs: idempotence at `" My Title!! "`
and the `"item"` default at the symbol-only string `"!*!"` and at the empty
string. -/
theorem c9_witness :
    pySlugify (pySlugify " My Title!! ") = pySlugify " My Title!! " ∧
    pySlugify "!*!" = "item" ∧ pySlugify "" = "item" :=
  ⟨c9_slugify_idempotent.1 " My Title!! ",
   c9_slugify_idempotent.2 "!*!" (by decide),
   c9_slugify_idempotent.2 "" (by decide)⟩

/-! ## Path suffix of derived output paths -/

theorem takeWhile_all_ne {p : Char → Bool} {l : List Char}
    (h : ∀ c ∈ l, p c = true) : l.takeWhile p = l := by
  induction l with
  | nil => rfl
  | cons a t ih =>
    rw [List.takeWhile_cons_of_pos (h a (List.mem_cons_self _ _))]
    rw [ih (fun c hc => h c (List.mem_cons_of_mem _ hc))]

/-- Suffix of a path ending in `<name>.<ext>` where the final component's base
and extension are nonempty and free of slashes and dots: exactly `.<ext>`. -/
theorem pySuffixL_of_parts (d b e : List Char) (hb : b ≠ []) (he : e ≠ [])
    (hbOK : ∀ c ∈ b, c ≠ '/' ∧ c ≠ '.') (heOK : ∀ c ∈ e, c ≠ '/' ∧ c ≠ '.') :
    pySuffixL (d ++ '/' :: (b ++ '.' :: e)) = '.' :: e := by
  have hrev : (d ++ '/' :: (b ++ '.' :: e)).reverse =
      ((e.reverse ++ '.' :: b.reverse) ++ '/' :: d.reverse) := by
    simp [List.reverse_append, List.reverse_cons, List.append_assoc]
  have hslash : ∀ c ∈ e.reverse ++ '.' :: b.reverse, decide (c ≠ '/') = true := by
    intro c hc
    rcases List.mem_append.mp hc with h1 | h1
    · simp [(heOK c (List.mem_reverse.mp h1)).1]
    · rcases List.mem_cons.mp h1 with rfl | h2
      · decide
      · simp [(hbOK c (List.mem_reverse.mp h2)).1]
  have hname : pathName (d ++ '/' :: (b ++ '.' :: e)) = (e.reverse ++ '.' :: b.reverse).reverse := by
    rw [pathName, hrev, List.takeWhile_append_of_pos hslash,
      List.takeWhile_cons_of_neg (by decide)]
    rw [List.append_nil]
  have hrev2 : (pathName (d ++ '/' :: (b ++ '.' :: e))).reverse =
      e.reverse ++ '.' :: b.reverse := by
    rw [hname, List.reverse_reverse]
  have hdot : ∀ c ∈ e.reverse, decide (c ≠ '.') = true := by
    intro c hc
    simp [(heOK c (List.mem_reverse.mp hc)).2]
  have htw : (e.reverse ++ '.' :: b.reverse).takeWhile (fun c => decide (c ≠ '.')) =
      e.reverse := by
    rw [List.takeWhile_append_of_pos hdot, List.takeWhile_cons_of_neg (by decide),
      List.append_nil]
  rw [pySuffixL, hrev2, htw]
  have hcond : 0 < e.reverse.length ∧ e.reverse.length + 1 <
      (e.reverse ++ '.' :: b.reverse).length := by
    constructor
    · rw [List.length_reverse]
      exact List.length_pos_of_ne_nil he
    · simp only [List.length_append, List.length_cons, List.length_reverse]
      have := List.length_pos_of_ne_nil hb
      omega
  rw [if_pos hcond]
  have htake : (e.reverse ++ '.' :: b.reverse).take (e.reverse.length + 1) =
      e.reverse ++ ['.'] := by
    rw [List.take_append 1]
    rfl
  rw [htake]
  simp

/-- Characters of a slug are word characters or hyphens. -/
theorem mem_pySlugify_wordOrHyphen (s : String) :
    ∀ c ∈ (pySlugify s).data, isWordOrHyphen c = true := by
  intro c hc
  rw [pySlugify_as_pipeline s] at hc
  by_cases h4 : pyStripWith (fun c => c = '-')
      (collapseHyphens (collapseNonWord
        ((pyStripWith isPySpace s.data).map pyLowerChar))) = []
  · rw [if_pos h4] at hc
    have hmem : c = 'i' ∨ c = 't' ∨ c = 'e' ∨ c = 'm' := by simpa using hc
    rcases hmem with rfl | rfl | rfl | rfl <;> decide
  · rw [if_neg h4] at hc
    exact mem_collapseNonWord _ c (mem_collapseHyphens _ c (mem_pyStripWith hc))

theorem pySlugify_ne_empty (s : String) : pySlugify s ≠ "" := by
  rw [pySlugify_as_pipeline s]
  by_cases h4 : pyStripWith (fun c => c = '-')
      (collapseHyphens (collapseNonWord
        ((pyStripWith isPySpace s.data).map pyLowerChar))) = []
  · rw [if_pos h4]; decide
  · rw [if_neg h4]
    intro hcontra
    exact h4 (congrArg String.data hcontra)

theorem mem_slugOrReport_wordOrHyphen (t : String) :
    ∀ c ∈ (slugOrReport t).data, isWordOrHyphen c = true := by
  intro c hc
  rw [slugOrReport] at hc
  by_cases h : pySlugify t = ""
  · rw [if_pos h] at hc
    have hmem : c = 'r' ∨ c = 'e' ∨ c = 'p' ∨ c = 'o' ∨ c = 'r' ∨ c = 't' := by
      simpa using hc
    rcases hmem with rfl | rfl | rfl | rfl | rfl | rfl <;> decide
  · rw [if_neg h] at hc
    exact mem_pySlugify_wordOrHyphen t c hc

theorem slugOrReport_ne_empty (t : String) : slugOrReport t ≠ "" := by
  rw [slugOrReport]
  by_cases h : pySlugify t = ""
  · rw [if_pos h]; decide
  · rw [if_neg h]; exact pySlugify_ne_empty t

theorem wordOrHyphen_ne_slash_dot {c : Char} (h : isWordOrHyphen c = true) :
    c ≠ '/' ∧ c ≠ '.' := by
  constructor
  · rintro rfl; exact absurd h (by decide)
  · rintro rfl; exact absurd h (by decide)

/-- Suffix of the derived output path `dir/<slug>.<ext-tail>` for an extension
tail that is nonempty and free of slashes and dots. -/
theorem pySuffix_derived (dir t e : String) (he : e ≠ "")
    (heOK : ∀ c ∈ e.data, c ≠ '/' ∧ c ≠ '.') :
    pySuffix (pathJoin dir (slugOrReport t ++ "." ++ e)) = "." ++ e := by
  have hdata : (pathJoin dir (slugOrReport t ++ "." ++ e)).data =
      dir.data ++ '/' :: ((slugOrReport t).data ++ '.' :: e.data) := by
    show (dir ++ "/" ++ (slugOrReport t ++ "." ++ e)).data = _
    simp [List.append_assoc]
  have hb : (slugOrReport t).data ≠ [] := by
    intro hcontra
    exact slugOrReport_ne_empty t (String.ext hcontra)
  have he' : e.data ≠ [] := by
    intro hcontra
    exact he (String.ext hcontra)
  have hbOK : ∀ c ∈ (slugOrReport t).data, c ≠ '/' ∧ c ≠ '.' :=
    fun c hc => wordOrHyphen_ne_slash_dot (mem_slugOrReport_wordOrHyphen t c hc)
  rw [pySuffix, hdata, pySuffixL_of_parts _ _ _ hb he' hbOK heOK]
  apply String.ext
  simp

theorem pyLower_append (a b : String) : pyLower (a ++ b) = pyLower a ++ pyLower b := by
  apply String.ext
  simp [pyLower]

theorem lstripDots_dot_append (e : String) (heOK : ∀ c ∈ e.data, c ≠ '.') :
    lstripDots ("." ++ e) = e := by
  apply String.ext
  show (("." ++ e).data.dropWhile (fun c => c = '.')) = e.data
  rw [show ("." ++ e).data = '.' :: e.data from rfl,
    List.dropWhile_cons_of_pos (by decide)]
  exact dropWhile_eq_self_of_all (fun c hc => by simp [heOK c hc])

theorem resolve_none_none (title dir : String) :
    resolveOutputAndFormat title dir none none =
      (pathJoin dir (slugOrReport title ++ ".pdf"),
       pyLower (lstripDots (pySuffix (pathJoin dir (slugOrReport title ++ ".pdf"))))) := rfl

theorem resolve_none_some (title dir t : String) :
    resolveOutputAndFormat title dir none (some t) =
      (if pyLower (pySuffix (pathJoin dir (slugOrReport title ++
          (if pyLower t = "pdf" then ".pdf" else "." ++ pyLower t)))) ≠ "." ++ t
       then (pyWithSuffix (pathJoin dir (slugOrReport title ++
          (if pyLower t = "pdf" then ".pdf" else "." ++ pyLower t))) ("." ++ t), t)
       else (pathJoin dir (slugOrReport title ++
          (if pyLower t = "pdf" then ".pdf" else "." ++ pyLower t)), t)) := rfl

/-- Claim C1 as amended.  When neither an output path nor a format is given the
format is pdf and the path is the slugified title with extension `.pdf` inside
the output directory; when only the output path is given its extension
(lowercased, without leading dots) determines the format; when only a format
name is given (a simple name: nonempty, already lowercase, no dot or slash) it
determines the extension of the derived path; when both are given the format
name wins — the output path is rewritten to carry the format's extension
whenever its own lowercased extension differs, and the target format is the
explicit format name, not the path's extension. -/
theorem c1_amended :
    (∀ title dir : String, resolveOutputAndFormat title dir none none =
      (pathJoin dir (slugOrReport title ++ ".pdf"), "pdf")) ∧
    (∀ title dir p : String, resolveOutputAndFormat title dir (some p) none =
      (p, pyLower (lstripDots (pySuffix p)))) ∧
    (∀ title dir t : String, t ≠ "" → pyLower t = t →
      (∀ c ∈ t.data, c ≠ '/' ∧ c ≠ '.') →
      resolveOutputAndFormat title dir none (some t) =
        (pathJoin dir (slugOrReport title ++ ("." ++ t)), t)) ∧
    (∀ title dir p t : String, resolveOutputAndFormat title dir (some p) (some t) =
      (if pyLower (pySuffix p) ≠ "." ++ t then (pyWithSuffix p ("." ++ t), t)
       else (p, t))) := by
  refine ⟨fun title dir => ?_, fun title dir p => rfl, fun title dir t ht hlow hOK => ?_,
    fun title dir p t => rfl⟩
  · have hsplit : slugOrReport title ++ ".pdf" = slugOrReport title ++ "." ++ "pdf" := by
      apply String.ext; simp
    have hsuf : pySuffix (pathJoin dir (slugOrReport title ++ ".pdf")) = ".pdf" := by
      rw [hsplit]
      exact pySuffix_derived dir title "pdf" (by decide) (by decide)
    rw [resolve_none_none, hsuf]
    exact Prod.ext rfl (by decide : pyLower (lstripDots ".pdf") = "pdf")
  · rw [resolve_none_some]
    by_cases hpdf : pyLower t = "pdf"
    · have htp : t = "pdf" := by rw [← hlow, hpdf]
      subst htp
      rw [if_pos hpdf]
      have hsuf : pySuffix (pathJoin dir (slugOrReport title ++ ".pdf")) = ".pdf" := by
        have h2 : slugOrReport title ++ ".pdf" = slugOrReport title ++ "." ++ "pdf" := by
          apply String.ext; simp
        rw [h2]
        exact pySuffix_derived dir title "pdf" (by decide) (by decide)
      rw [hsuf, if_neg (by decide)]
      rfl
    · rw [if_neg hpdf, hlow]
      have hsplit2 : slugOrReport title ++ ("." ++ t) = slugOrReport title ++ "." ++ t := by
        apply String.ext; simp
      have hsuf : pySuffix (pathJoin dir (slugOrReport title ++ ("." ++ t))) =
          "." ++ t := by
        rw [hsplit2]
        exact pySuffix_derived dir title t (fun hc => ht hc) (fun c hc => hOK c hc)
      have hlow2 : pyLower ("." ++ t) = "." ++ t := by
        rw [pyLower_append, hlow]
        congr 1
      rw [hsuf, hlow2, if_neg (by simp)]

/-- Witness for claim C1's format-name case at concrete inputs: only
`to='html'` given. -/
theorem c1_witness :
    resolveOutputAndFormat "My Report" "report_out" none (some "html") =
      (pathJoin "report_out" (slugOrReport "My Report" ++ ("." ++ "html")), "html") :=
  c1_amended.2.2.1 "My Report" "report_out" "html" (by decide) (by decide) (by decide)

/-! ## Claim C3: the built-in formatters -/

theorem roundHalfEven_intCast (m : Int) : roundHalfEven (m : ℚ) = m := by
  simp only [roundHalfEven, Int.floor_intCast]
  norm_num

theorem roundHalfEven_of_floor_lt {q : ℚ} {f : Int} (hf : ⌊q⌋ = f)
    (hr : q - f < 1/2) : roundHalfEven q = f := by
  simp only [roundHalfEven, hf]
  rw [if_pos hr]

theorem commaFixed2_of_round {q : ℚ} {n : Int} (h : roundHalfEven (q * 100) = n) :
    commaFixed2 q = (if n < 0 then "-" else "") ++ commaNat (n.natAbs / 100) ++
      "." ++ twoDigits (n.natAbs % 100) := by
  simp only [commaFixed2, h]

theorem plainFixed2_of_round {q : ℚ} {n : Int} (h : roundHalfEven (q * 100) = n) :
    plainFixed2 q = (if n < 0 then "-" else "") ++ natRepr (n.natAbs / 100) ++
      "." ++ twoDigits (n.natAbs % 100) := by
  simp only [plainFixed2, h]

/-- Counterexample to claim C3 as stated: the code's `percent` formatter uses
the thousands-separated format `f'\x7bx:,.2f\x7d%'`, not the claimed `"\x7b:.2f\x7d%"`.
At `1234.5` the code produces `"1,234.50%"` while the claimed format gives
`"1234.50%"`. -/
theorem c3_counterexample :
    fmtPercent (.vFloat ((2469 : ℚ)/2)) = some "1,234.50%" ∧
    plainFixed2 ((2469 : ℚ)/2) ++ "%" = "1234.50%" ∧
    fmtPercent (.vFloat ((2469 : ℚ)/2)) ≠ some (plainFixed2 ((2469 : ℚ)/2) ++ "%") := by
  have hcast : ((2469 : ℚ)/2) * 100 = ((123450 : Int) : ℚ) := by norm_num
  have hround : roundHalfEven (((2469 : ℚ)/2) * 100) = 123450 := by
    rw [hcast, roundHalfEven_intCast]
  have hc : commaFixed2 ((2469 : ℚ)/2) = "1,234.50" := by
    rw [commaFixed2_of_round hround]
    decide
  have hp : plainFixed2 ((2469 : ℚ)/2) = "1234.50" := by
    rw [plainFixed2_of_round hround]
    decide
  refine ⟨?_, ?_, ?_⟩
  · show some (commaFixed2 ((2469 : ℚ)/2) ++ "%") = some "1,234.50%"
    rw [hc]; rfl
  · rw [hp]; rfl
  · show some (commaFixed2 ((2469 : ℚ)/2) ++ "%") ≠ some (plainFixed2 ((2469 : ℚ)/2) ++ "%")
    rw [hc, hp]
    decide

/-- Claim C3 as amended: the built-in formatters use thousands-separated
two-decimal formatting — `percent` renders v as `f'\x7bx:,.2f\x7d%'`, `percent100`
renders 100·v the same way, `round` is the bare two-decimal thousands-separated
format, and `round_int` on an int is the thousands-separated integer format;
on values below 1000 no separator appears, so `percent100` of 0.1234 is
`"12.34%"` and `percent` of 0.1234 is `"0.12%"` exactly as the spec's examples
state. -/
theorem c3_amended :
    (∀ q : ℚ, fmtPercent (.vFloat q) = some (commaFixed2 q ++ "%") ∧
      fmtPercent100 (.vFloat q) = some (commaFixed2 (100 * q) ++ "%") ∧
      fmtRound (.vFloat q) = some (commaFixed2 q)) ∧
    (∀ n : Int, fmtRoundInt (.vInt n) = some (commaInt n)) ∧
    fmtPercent100 (.vFloat ((617 : ℚ)/5000)) = some "12.34%" ∧
    fmtPercent (.vFloat ((617 : ℚ)/5000)) = some "0.12%" := by
  refine ⟨fun q => ⟨rfl, rfl, rfl⟩, fun n => rfl, ?_, ?_⟩
  · have hcast : (100 * ((617 : ℚ)/5000)) * 100 = ((1234 : Int) : ℚ) := by norm_num
    have hround : roundHalfEven ((100 * ((617 : ℚ)/5000)) * 100) = 1234 := by
      rw [hcast, roundHalfEven_intCast]
    have hc : commaFixed2 (100 * ((617 : ℚ)/5000)) = "12.34" := by
      rw [commaFixed2_of_round hround]
      decide
    show some (commaFixed2 (100 * ((617 : ℚ)/5000)) ++ "%") = some "12.34%"
    rw [hc]; rfl
  · have hfloor : ⌊((617 : ℚ)/5000) * 100⌋ = 12 := by
      norm_num [Int.floor_eq_iff]
    have hround : roundHalfEven (((617 : ℚ)/5000) * 100) = 12 := by
      refine roundHalfEven_of_floor_lt hfloor ?_
      norm_num
    have hc : commaFixed2 ((617 : ℚ)/5000) = "0.12" := by
      rw [commaFixed2_of_round hround]
      decide
    show some (commaFixed2 ((617 : ℚ)/5000) ++ "%") = some "0.12%"
    rw [hc]; rfl

/-! ## Claim C2: cell formatting precedence -/

/-- Claim C2: each rendered cell follows the strict precedence name-keyed
formatter, then position-keyed formatter, then integer-dtype thousands
default, then float-dtype two-decimal default, then plain string conversion,
and a `None` value yields the empty cell regardless of formatters — the
embedded cell renderer coincides with the specification's formulation on
every input. -/
theorem c2_cell_precedence (fmts : FmtMap) (dtype colname : String) (j : Nat)
    (v : PyVal) :
    renderCell fmts dtype colname j v = renderCellSpec fmts dtype colname j v ∧
    renderCell fmts dtype colname j .vNone = some "" := by
  constructor
  · cases v <;> rfl
  · rfl

/-! ## Claim C4: missing PDF engine handling -/

/-- Claim C4 is right about intent but the code has a bug: with target format
pdf, no explicit engine, no probe hit, and dry-run NOT requested, compile
raises the no-engine-found error; with dry-run requested it does not raise
that error, but instead of printing the command it crashes with a `TypeError`,
because the `None` engine is appended to the argument list and
`' '.join(cmd)` rejects `None`. -/
theorem c4_dry_run_type_error :
    compileReport envNoEngine cfgEx none (some "pdf") none [] false none =
      .error .noEngineFound ∧
    compileReport envNoEngine cfgEx none (some "pdf") none [] true none =
      .error .typeErrorNoneInCmd := by
  constructor <;> rfl

/-! ## Claim C5: the constructed Pandoc argument vector -/

theorem mapMO_id_somes (xs : List String) : mapMO id (xs.map some) = some xs := by
  induction xs with
  | nil => rfl
  | cons a t ih => simp [mapMO, ih]

/-- Claim C5: for every compile call whose resolved target format is pdf, with
an explicit engine and dry-run mode, the argument vector is exactly the
converter name, `-s`, `--from`, the markup format, the source path, `-o`, the
output path, `--resource-path`, the assets path, the three metadata flags, the
`--pdf-engine` flag immediately followed by the engine, then the extra
arguments verbatim; the call prints that vector joined by spaces. -/
theorem c5_pdf_command_vector (env : CompileEnv) (cfg : ReportCfg)
    (output? to? : Option String) (engine : String) (extraArgs : List String)
    (h : (resolveOutputAndFormat cfg.title cfg.outDir output? to?).2 = "pdf") :
    buildCmd cfg (resolveOutputAndFormat cfg.title cfg.outDir output? to?).1
        (some (some engine)) extraArgs none =
      (["pandoc", "-s", "--from", "gfm",
        pathJoin cfg.outDir cfg.mdFilename, "-o",
        (resolveOutputAndFormat cfg.title cfg.outDir output? to?).1,
        "--resource-path", pathJoin cfg.outDir cfg.assetsDirname,
        "-M", "title=" ++ cfg.title, "-M", "author=" ++ authorOrEmpty cfg.author,
        "-M", "date=" ++ fmtDateTime cfg.created,
        "--pdf-engine", engine] ++ extraArgs).map some ∧
    compileReport env cfg output? to? (some engine) extraArgs true none =
      .ok (.printed (pyJoin " "
        (["pandoc", "-s", "--from", "gfm",
          pathJoin cfg.outDir cfg.mdFilename, "-o",
          (resolveOutputAndFormat cfg.title cfg.outDir output? to?).1,
          "--resource-path", pathJoin cfg.outDir cfg.assetsDirname,
          "-M", "title=" ++ cfg.title, "-M", "author=" ++ authorOrEmpty cfg.author,
          "-M", "date=" ++ fmtDateTime cfg.created,
          "--pdf-engine", engine] ++ extraArgs)),
        (resolveOutputAndFormat cfg.title cfg.outDir output? to?).1) := by
  have hvec : buildCmd cfg (resolveOutputAndFormat cfg.title cfg.outDir output? to?).1
      (some (some engine)) extraArgs none =
      (["pandoc", "-s", "--from", "gfm",
        pathJoin cfg.outDir cfg.mdFilename, "-o",
        (resolveOutputAndFormat cfg.title cfg.outDir output? to?).1,
        "--resource-path", pathJoin cfg.outDir cfg.assetsDirname,
        "-M", "title=" ++ cfg.title, "-M", "author=" ++ authorOrEmpty cfg.author,
        "-M", "date=" ++ fmtDateTime cfg.created,
        "--pdf-engine", engine] ++ extraArgs).map some := by
    rw [buildCmd]
    simp [wslStr, List.map_append]
  refine ⟨hvec, ?_⟩
  conv_lhs => rw [compileReport]
  simp only [h, Option.isSome_none, Bool.or_false, Bool.not_true, Bool.and_false,
    Bool.false_eq_true, if_false, if_true, reduceIte]
  rw [if_neg (by simp)]
  have heng : enginePlan env "pdf" (some engine) = some (some engine) := rfl
  rw [runOrPrint, if_pos rfl, joinCmd, heng, hvec, mapMO_id_somes]
  rfl

/-! ## Claim C10: add_plot is not atomic -/

/-- Claim C10: `add_plot` bumps the figure counter before dispatching on the
figure, so a failing call leaves the counter incremented while appending no
part, and the next successful call uses the number after the skipped one. -/
theorem c10_add_plot_not_atomic (cfg : ReportCfg) (st : DocState) (fig : PyFig)
    (cap w : Option String) (hfail : figOk fig = false) :
    (addPlot cfg st fig cap w).1.imageCounter = st.imageCounter + 1 ∧
    (addPlot cfg st fig cap w).2 = none ∧
    (addPlot cfg st fig cap w).1.parts = st.parts ∧
    (∀ fig' cap' w', figOk fig' = true →
      (addPlot cfg (addPlot cfg st fig cap w).1 fig' cap' w').2 =
        some ("figure-" ++ padNat 3 (st.imageCounter + 2) ++ ".png")) := by
  refine ⟨?_, ?_, ?_, ?_⟩
  · simp [addPlot, hfail]
  · simp [addPlot, hfail]
  · simp [addPlot, hfail]
  · intro fig' cap' w' hok
    simp [addPlot, hfail, hok]

/-- Witness for claim C10 at concrete inputs: an unsupported figure after a
fresh report, then a Matplotlib figure, which gets number 002. -/
theorem c10_witness :
    (addPlot cfgEx (mkReportState cfgEx) .other none none).1.imageCounter = 1 ∧
    (addPlot cfgEx (addPlot cfgEx (mkReportState cfgEx) .other none none).1
      .mpl none none).2 = some "figure-002.png" := by
  have h := c10_add_plot_not_atomic cfgEx (mkReportState cfgEx) .other none none rfl
  refine ⟨?_, ?_⟩
  · rw [h.1]
    decide
  · have h2 := h.2.2.2 .mpl none none rfl
    rw [h2]
    decide

/-- Witness for claim C5 at concrete inputs, mirroring the repository's own
dry-run test: `to='pdf'`, engine `weasyprint`, one extra argument. -/
theorem c5_witness :
    buildCmd cfgEx (resolveOutputAndFormat cfgEx.title cfgEx.outDir none (some "pdf")).1
        (some (some "weasyprint")) ["--toc"] none =
      (["pandoc", "-s", "--from", "gfm",
        pathJoin cfgEx.outDir cfgEx.mdFilename, "-o",
        (resolveOutputAndFormat cfgEx.title cfgEx.outDir none (some "pdf")).1,
        "--resource-path", pathJoin cfgEx.outDir cfgEx.assetsDirname,
        "-M", "title=" ++ cfgEx.title, "-M", "author=" ++ authorOrEmpty cfgEx.author,
        "-M", "date=" ++ fmtDateTime cfgEx.created,
        "--pdf-engine", "weasyprint"] ++ ["--toc"]).map some ∧
    compileReport envNoEngine cfgEx none (some "pdf") (some "weasyprint") ["--toc"]
        true none =
      .ok (.printed (pyJoin " "
        (["pandoc", "-s", "--from", "gfm",
          pathJoin cfgEx.outDir cfgEx.mdFilename, "-o",
          (resolveOutputAndFormat cfgEx.title cfgEx.outDir none (some "pdf")).1,
          "--resource-path", pathJoin cfgEx.outDir cfgEx.assetsDirname,
          "-M", "title=" ++ cfgEx.title, "-M", "author=" ++ authorOrEmpty cfgEx.author,
          "-M", "date=" ++ fmtDateTime cfgEx.created,
          "--pdf-engine", "weasyprint"] ++ ["--toc"])),
        (resolveOutputAndFormat cfgEx.title cfgEx.outDir none (some "pdf")).1) :=
  c5_pdf_command_vector envNoEngine cfgEx none (some "pdf") "weasyprint" ["--toc"]
    (by decide)

/-! ## Claim C7: figure numbering over operation sequences -/

/-- Counterexample to claim C7 as stated: on a Document that already performed
one `add_plot`, a single further `add_plot` call produces `figure-002.png`,
not `figure-001.png` as the claim's universal quantification over Documents
demands. -/
theorem c7_counterexample :
    (runOps cfgEx (addPlot cfgEx (mkReportState cfgEx) .mpl none none).1
        [.plot .mpl none none]).map (fun r => r.2) = some ["figure-002.png"] ∧
    "figure-002.png" ≠ "figure-001.png" := by
  constructor
  · rfl
  · decide

theorem stepOp_imageCounter_nonplot (cfg : ReportCfg) (st : DocState) (op : Op)
    (st' : DocState) (files : List String)
    (h : stepOp cfg st op = some (st', files))
    (hnp : ∀ fig cap w, op ≠ .plot fig cap w) :
    st'.imageCounter = st.imageCounter ∧ files = [] := by
  cases op with
  | heading t lvl =>
    rw [stepOp] at h
    injection h with h
    injection h with h1 h2
    subst h1; subst h2
    exact ⟨rfl, rfl⟩
  | paragraph t =>
    rw [stepOp] at h
    injection h with h
    injection h with h1 h2
    subst h1; subst h2
    exact ⟨rfl, rfl⟩
  | markdown t =>
    rw [stepOp] at h
    injection h with h
    injection h with h1 h2
    subst h1; subst h2
    exact ⟨rfl, rfl⟩
  | table name df al =>
    rw [stepOp] at h
    obtain ⟨st1, hst1, heq⟩ := Option.map_eq_some'.mp h
    injection heq with he1 he2
    subst he1; subst he2
    rw [addTable] at hst1
    obtain ⟨md, _, hmd⟩ := Option.map_eq_some'.mp hst1
    subst hmd
    exact ⟨rfl, rfl⟩
  | image stem ext ex cap w =>
    rw [stepOp] at h
    obtain ⟨st1, hst1, heq⟩ := Option.map_eq_some'.mp h
    injection heq with he1 he2
    subst he1; subst he2
    rw [addImage] at hst1
    cases hex : ex with
    | true =>
      rw [hex] at hst1
      rw [if_neg (by simp)] at hst1
      injection hst1 with hst1
      subst hst1
      exact ⟨rfl, rfl⟩
    | false =>
      rw [hex] at hst1
      rw [if_pos (by simp)] at hst1
      cases hst1
  | plot fig cap w => exact absurd rfl (hnp fig cap w)

theorem addPlot_ok (cfg : ReportCfg) (st : DocState) (fig : PyFig)
    (cap w : Option String) (hok : figOk fig = true) :
    (addPlot cfg st fig cap w).1.imageCounter = st.imageCounter + 1 ∧
    (addPlot cfg st fig cap w).2 =
      some ("figure-" ++ padNat 3 (st.imageCounter + 1) ++ ".png") := by
  constructor
  · simp [addPlot, hok]
  · simp [addPlot, hok]

/-- Claim C7 as amended: any successfully completed operation sequence on a
Document whose figure counter starts at c produces, through its `add_plot`
calls in order, exactly the filenames `figure-(c+1)` … `figure-(c+N)`
(3-digit zero-padded), and leaves the counter at c+N — so the counter only
grows and no number is reused; a fresh Document (counter 0) gets
`figure-001.png` … `figure-NNN.png`. -/
theorem c7_figure_numbering (cfg : ReportCfg) (st : DocState) (ops : List Op)
    (st' : DocState) (files : List String)
    (h : runOps cfg st ops = some (st', files)) :
    files = (List.range files.length).map
      (fun i => "figure-" ++ padNat 3 (st.imageCounter + i + 1) ++ ".png") ∧
    st'.imageCounter = st.imageCounter + files.length := by
  induction ops generalizing st files with
  | nil =>
    rw [runOps] at h
    injection h with h
    injection h with h1 h2
    subst h1; subst h2
    exact ⟨rfl, rfl⟩
  | cons op rest ih =>
    rw [runOps] at h
    cases hstep : stepOp cfg st op with
    | none => rw [hstep, Option.none_bind] at h; cases h
    | some p =>
      rw [hstep, Option.some_bind] at h
      obtain ⟨q, hq, heq⟩ := Option.map_eq_some'.mp h
      injection heq with he1 he2
      subst he1; subst he2
      obtain ⟨ihf, ihc⟩ := ih p.1 q.2 hq
      by_cases hplot : ∃ fig cap w, op = Op.plot fig cap w
      · obtain ⟨fig, cap, w, rfl⟩ := hplot
        rw [stepOp] at hstep
        cases hok : figOk fig with
        | false =>
          have h2 : (addPlot cfg st fig cap w).2 = none := by simp [addPlot, hok]
          rw [h2] at hstep
          cases hstep
        | true =>
          obtain ⟨hc1, h2⟩ := addPlot_ok cfg st fig cap w hok
          rw [h2, Option.map_some'] at hstep
          injection hstep with hstep
          obtain ⟨he1, he2⟩ := Prod.ext_iff.mp hstep
          simp only at he1 he2
          rw [← he2, List.cons_append, List.nil_append]
          constructor
          · rw [List.length_cons, List.range_succ_eq_map, List.map_cons,
              List.cons_eq_cons]
            refine ⟨rfl, ?_⟩
            rw [List.map_map, ihf, List.length_map, List.length_range]
            apply List.map_congr_left
            intro i _
            simp only [Function.comp_apply]
            have harith : p.1.imageCounter + i + 1 =
                st.imageCounter + Nat.succ i + 1 := by
              rw [← he1, hc1]; omega
            rw [harith]
          · rw [List.length_cons, ihc, ← he1, hc1]
            omega
      · have hnp : ∀ fig cap w, op ≠ .plot fig cap w := by
          intro fig cap w hcontra
          exact hplot ⟨fig, cap, w, hcontra⟩
        obtain ⟨hcnt, hf1⟩ := stepOp_imageCounter_nonplot cfg st op p.1 p.2 (by
          rw [hstep]) hnp
        rw [hf1, List.nil_append, ← hcnt]
        exact ⟨ihf, by rw [ihc]⟩

/-- Witness for claim C7 at a concrete run: a fresh report, one paragraph and
one Matplotlib plot; the produced filenames are exactly `figure-001.png` and
the counter ends at 1. -/
theorem c7_witness :
    ["figure-001.png"] = (List.range (["figure-001.png"] : List String).length).map
      (fun i => "figure-" ++ padNat 3 ((mkReportState cfgEx).imageCounter + i + 1) ++
        ".png") ∧
    (DocState.mk ["# Test Report",
      "Generated: 2025-01-02 03:04 | Author: Test Author", "hello",
      "![Figure 1](assets/figure-001.png)"] 1).imageCounter =
      (mkReportState cfgEx).imageCounter + (["figure-001.png"] : List String).length :=
  c7_figure_numbering cfgEx (mkReportState cfgEx)
    [.paragraph "hello", .plot .mpl none none]
    (DocState.mk ["# Test Report",
      "Generated: 2025-01-02 03:04 | Author: Test Author", "hello",
      "![Figure 1](assets/figure-001.png)"] 1)
    ["figure-001.png"] (by decide)

/-! ## Newline-freedom of rendered cells -/

theorem digitChar_ne_nl {d : Nat} (hd : d < 10) : digitChar d ≠ '\n' := by
  intro hcontra
  have h1 : (digitChar d).toNat = 48 + d := char_toNat_ofNat _ (by omega)
  rw [hcontra] at h1
  have h2 : ('\n').toNat = 10 := rfl
  omega

theorem nl_not_mem_natDigitsAux (fuel : Nat) : ∀ n, '\n' ∉ natDigitsAux fuel n := by
  induction fuel with
  | zero => intro n h; simp [natDigitsAux] at h
  | succ fuel ih =>
    intro n h
    rw [natDigitsAux] at h
    by_cases hn : n = 0
    · rw [if_pos hn] at h; simp at h
    · rw [if_neg hn] at h
      rcases List.mem_cons.mp h with hcontra | h2
      · exact digitChar_ne_nl (Nat.mod_lt n (by omega)) hcontra.symm
      · exact ih (n / 10) h2

theorem nl_not_mem_natDigitsRev (n : Nat) : '\n' ∉ natDigitsRev n := by
  rw [natDigitsRev]
  by_cases hn : n = 0
  · rw [if_pos hn]; decide
  · rw [if_neg hn]; exact nl_not_mem_natDigitsAux n n

theorem mem_group3 (l : List Char) : ∀ c ∈ group3 l, c ∈ l ∨ c = ',' := by
  induction l using group3.induct with
  | case1 a b c d rest ih =>
    intro x hx
    rw [group3] at hx
    rcases List.mem_cons.mp hx with rfl | hx
    · exact Or.inl (by simp)
    rcases List.mem_cons.mp hx with rfl | hx
    · exact Or.inl (by simp)
    rcases List.mem_cons.mp hx with rfl | hx
    · exact Or.inl (by simp)
    rcases List.mem_cons.mp hx with rfl | hx
    · exact Or.inr rfl
    · rcases ih x hx with h1 | h1
      · exact Or.inl (by simp at h1 ⊢; tauto)
      · exact Or.inr h1
  | case2 ds h =>
    intro x hx
    rw [group3] at hx
    · exact Or.inl hx
    · exact h

theorem noNL_append {a b : String} (ha : '\n' ∉ a.data) (hb : '\n' ∉ b.data) :
    '\n' ∉ (a ++ b).data := by
  rw [String.data_append]
  intro h
  rcases List.mem_append.mp h with h1 | h1
  · exact ha h1
  · exact hb h1

theorem noNL_natRepr (n : Nat) : '\n' ∉ (natRepr n).data := by
  intro h
  have h1 : '\n' ∈ natDigitsRev n := List.mem_reverse.mp h
  exact nl_not_mem_natDigitsRev n h1

theorem noNL_commaNat (n : Nat) : '\n' ∉ (commaNat n).data := by
  intro h
  have h1 : '\n' ∈ group3 (natDigitsRev n) := List.mem_reverse.mp h
  rcases mem_group3 _ _ h1 with h2 | h2
  · exact nl_not_mem_natDigitsRev n h2
  · cases h2

theorem noNL_sign (i : Int) : '\n' ∉ ((if i < 0 then "-" else "") : String).data := by
  by_cases hi : i < 0
  · rw [if_pos hi]; decide
  · rw [if_neg hi]; decide

theorem noNL_intRepr (i : Int) : '\n' ∉ (intRepr i).data :=
  noNL_append (noNL_sign i) (noNL_natRepr i.natAbs)

theorem noNL_commaInt (i : Int) : '\n' ∉ (commaInt i).data :=
  noNL_append (noNL_sign i) (noNL_commaNat i.natAbs)

theorem noNL_twoDigits (m : Nat) : '\n' ∉ (twoDigits m).data := by
  intro h
  rcases List.mem_cons.mp h with h1 | h1
  · exact digitChar_ne_nl (Nat.mod_lt _ (by omega)) h1.symm
  rcases List.mem_cons.mp h1 with h2 | h2
  · exact digitChar_ne_nl (Nat.mod_lt _ (by omega)) h2.symm
  · cases h2

theorem noNL_commaFixed2 (q : ℚ) : '\n' ∉ (commaFixed2 q).data := by
  show '\n' ∉ ((if roundHalfEven (q * 100) < 0 then "-" else "") ++
    commaNat ((roundHalfEven (q * 100)).natAbs / 100) ++ "." ++
    twoDigits ((roundHalfEven (q * 100)).natAbs % 100)).data
  exact noNL_append (noNL_append (noNL_append (noNL_sign _) (noNL_commaNat _))
    (by decide)) (noNL_twoDigits _)

theorem noNL_pyStr_nonstr (v : PyVal) (h : ∀ s, v ≠ .vStr s) :
    '\n' ∉ (pyStr v).data := by
  cases v with
  | vNone => decide
  | vInt n => exact noNL_intRepr n
  | vFloat q =>
    show '\n' ∉ (if q.den = 1 then intRepr q.num ++ ".0" else intRepr q.num).data
    by_cases hd : q.den = 1
    · rw [if_pos hd]
      exact noNL_append (noNL_intRepr _) (by decide)
    · rw [if_neg hd]
      exact noNL_intRepr _
  | vStr s => exact absurd rfl (h s)

theorem noNL_pyJoin (sep : String) (l : List String) (hsep : '\n' ∉ sep.data)
    (h : ∀ s ∈ l, '\n' ∉ s.data) : '\n' ∉ (pyJoin sep l).data := by
  induction l with
  | nil => rw [pyJoin]; decide
  | cons x xs ih =>
    cases xs with
    | nil =>
      rw [pyJoin]
      exact h x (List.mem_cons_self _ _)
    | cons y ys =>
      rw [pyJoin]
      · exact noNL_append (noNL_append (h x (List.mem_cons_self _ _)) hsep)
          (ih (fun s hs => h s (List.mem_cons_of_mem _ hs)))
      · simp

/-! ## Success and shape of default-formatter rendering -/

theorem renderCell_noFmts (dt c : String) (j : Nat) (v : PyVal) :
    renderCell noFmts dt c j v =
      match v with
      | .vNone => some ""
      | _ =>
        if pyStartsWith dt "Int" || pyStartsWith dt "UInt" then fmtRoundInt v
        else if pyStartsWith dt "Float" then fmtRound v
        else some (pyStr v) := by
  cases v <;> rfl

theorem renderCell_ok (dt c : String) (j : Nat) (v : PyVal)
    (hv : dtypeOkB dt v = true) (hnl : valNoNewline v = true) :
    ∃ s, renderCell noFmts dt c j v = some s ∧ '\n' ∉ s.data := by
  rw [renderCell_noFmts]
  cases v with
  | vNone => exact ⟨"", rfl, by decide⟩
  | vInt n =>
    by_cases hInt : pyStartsWith dt "Int" || pyStartsWith dt "UInt"
    · rw [if_pos hInt]
      exact ⟨commaInt n, rfl, noNL_commaInt n⟩
    · by_cases hFl : pyStartsWith dt "Float"
      · exfalso
        simp [dtypeOkB, hFl] at hv
      · rw [if_neg hInt, if_neg hFl]
        exact ⟨pyStr (.vInt n), rfl, noNL_pyStr_nonstr _ (fun s h => by cases h)⟩
  | vFloat q =>
    by_cases hInt : pyStartsWith dt "Int" || pyStartsWith dt "UInt"
    · exfalso
      simp only [dtypeOkB, hInt, Bool.not_true] at hv
      cases hv
    · by_cases hFl : pyStartsWith dt "Float"
      · rw [if_neg hInt, if_pos hFl]
        exact ⟨commaFixed2 q, rfl, noNL_commaFixed2 q⟩
      · rw [if_neg hInt, if_neg hFl]
        exact ⟨pyStr (.vFloat q), rfl, noNL_pyStr_nonstr _ (fun s h => by cases h)⟩
  | vStr t =>
    have hnl' : '\n' ∉ t.data := by
      rw [valNoNewline] at hnl
      exact of_decide_eq_true hnl
    by_cases hInt : pyStartsWith dt "Int" || pyStartsWith dt "UInt"
    · exfalso
      simp only [dtypeOkB, hInt, Bool.true_or, Bool.not_true] at hv
      cases hv
    · by_cases hFl : pyStartsWith dt "Float"
      · exfalso
        simp [dtypeOkB, hFl] at hv
      · rw [if_neg hInt, if_neg hFl]
        exact ⟨t, rfl, hnl'⟩

theorem mapMO_some_of_forall {α β : Type} {f : α → Option β} {P : β → Prop}
    {l : List α} (h : ∀ a ∈ l, ∃ b, f a = some b ∧ P b) :
    ∃ l', mapMO f l = some l' ∧ l'.length = l.length ∧ ∀ b ∈ l', P b := by
  induction l with
  | nil => exact ⟨[], rfl, rfl, by simp⟩
  | cons a t ih =>
    obtain ⟨b, hb, hPb⟩ := h a (List.mem_cons_self _ _)
    obtain ⟨l', hl', hlen, hall⟩ := ih (fun a ha => h a (List.mem_cons_of_mem _ ha))
    refine ⟨b :: l', ?_, by simp [hlen], ?_⟩
    · rw [mapMO, hb, hl']
    · intro x hx
      rcases List.mem_cons.mp hx with rfl | hx
      · exact hPb
      · exact hall x hx

theorem renderLine_ok (df : Table) (row : List PyVal)
    (hv : ∀ p ∈ row.zip df.columns, dtypeOkB (df.dtype p.2) p.1 = true)
    (hnl : ∀ v ∈ row, valNoNewline v = true) :
    ∃ s, renderLine noFmts df.dtype df.columns row = some s ∧ '\n' ∉ s.data := by
  have hcells : ∀ p ∈ (row.zip df.columns).enum,
      ∃ b, renderCell noFmts (df.dtype p.2.2) p.2.2 p.1 p.2.1 = some b ∧
        '\n' ∉ b.data := by
    intro p hp
    have hp2 : p.2 ∈ row.zip df.columns := by
      have h1 := List.mem_enum_iff_getElem?.mp hp
      exact List.getElem?_mem h1
    have hvp := hv p.2 hp2
    have hmem := List.of_mem_zip (show (p.2.1, p.2.2) ∈ row.zip df.columns from hp2)
    exact renderCell_ok (df.dtype p.2.2) p.2.2 p.1 p.2.1 hvp (hnl p.2.1 hmem.1)
  obtain ⟨cells, hcells', _, hallnl⟩ := mapMO_some_of_forall hcells
  refine ⟨"| " ++ pyJoin " | " cells ++ " |", ?_, ?_⟩
  · rw [renderLine, hcells', Option.map_some']
  · exact noNL_append (noNL_append (by decide)
      (noNL_pyJoin _ _ (by decide) hallnl)) (by decide)

theorem alignTokens_eq (m : Nat) (hm : 1 ≤ m) (b : Bool) :
    alignTokens m b = (if b then ":--" else "--:") :: List.replicate (m - 1) "--:" := by
  obtain ⟨k, rfl⟩ : ∃ k, m = k + 1 := ⟨m - 1, by omega⟩
  rw [alignTokens, List.range_succ_eq_map, List.map_cons]
  have h0 : (if (0 : Nat) = 0 && b then ":--" else "--:") = if b then ":--" else "--:" := by
    cases b <;> simp
  rw [h0]
  congr 1
  rw [List.map_map, show k + 1 - 1 = k from rfl]
  rw [List.eq_replicate_iff]
  refine ⟨by simp, ?_⟩
  intro s hs
  obtain ⟨i, _, hi⟩ := List.mem_map.mp hs
  simp only [Function.comp_apply] at hi
  rw [if_neg (by simp)] at hi
  exact hi.symm

theorem noNL_alignToken (m : Nat) (b : Bool) :
    ∀ s ∈ alignTokens m b, '\n' ∉ s.data := by
  intro s hs
  obtain ⟨i, _, hi⟩ := List.mem_map.mp hs
  by_cases hc : i = 0 && b
  · rw [if_pos hc] at hi
    rw [← hi]; decide
  · rw [if_neg hc] at hi
    rw [← hi]; decide

theorem plToMarkdownTable_eq (df : Table) (b : Bool) (fmts : FmtMap) :
    plToMarkdownTable df b fmts =
      (mapMO (renderLine fmts df.dtype df.columns) df.rows).map
        (fun dataLines => pyJoin "\n"
          (("| " ++ pyJoin " | " df.columns ++ " |") ::
           ("| " ++ pyJoin " | " (alignTokens df.columns.length b) ++ " |") ::
           dataLines)) := rfl

/-! ## Claim C6: shape of the rendered table -/

/-- Counterexample to claim C6 as stated: a table whose single column name
contains a newline renders (with zero data rows) to a string with two newline
characters, i.e. three newline-separated lines instead of the claimed
`0 + 2`. -/
theorem c6_counterexample :
    (plToMarkdownTable dfNewlineName true noFmts).map
        (fun s => s.data.count '\n') = some 2 ∧
    (2 : Nat) ≠ dfNewlineName.rows.length + 1 := by
  constructor
  · rfl
  · decide

/-- Claim C6 as amended: for a well-typed table (cells match their column
dtypes) with at least one column, no newline in any column name and none in
any string cell, default formatters render to exactly `N + 2` newline-joined
lines — the pipe-joined header, the alignment row whose first token is `:--`
exactly when the left-align flag is set and whose other tokens are `--:`, and
one line per data row — and no line contains a newline character. -/
theorem c6_table_shape (df : Table) (b : Bool)
    (hm : 1 ≤ df.columns.length)
    (hwt : WellTypedTable df)
    (hnames : ∀ h ∈ df.columns, '\n' ∉ h.data)
    (hcells : ∀ row ∈ df.rows, ∀ v ∈ row, valNoNewline v = true) :
    ∃ L : List String,
      plToMarkdownTable df b noFmts = some (pyJoin "\n" L) ∧
      L.length = df.rows.length + 2 ∧
      (∀ s ∈ L, '\n' ∉ s.data) ∧
      L.head? = some ("| " ++ pyJoin " | " df.columns ++ " |") ∧
      L.get? 1 = some ("| " ++ pyJoin " | "
        ((if b then ":--" else "--:") :: List.replicate (df.columns.length - 1) "--:")
        ++ " |") := by
  have hrows : ∀ row ∈ df.rows,
      ∃ s, renderLine noFmts df.dtype df.columns row = some s ∧ '\n' ∉ s.data := by
    intro row hrow
    exact renderLine_ok df row (fun p hp => hwt row hrow p hp)
      (fun v hv => hcells row hrow v hv)
  obtain ⟨dataLines, hdata, hlen, hallnl⟩ := mapMO_some_of_forall hrows
  refine ⟨("| " ++ pyJoin " | " df.columns ++ " |") ::
    ("| " ++ pyJoin " | " (alignTokens df.columns.length b) ++ " |") :: dataLines,
    ?_, ?_, ?_, ?_, ?_⟩
  · rw [plToMarkdownTable_eq, hdata, Option.map_some']
  · simp [hlen]
  · intro s hs
    rcases List.mem_cons.mp hs with rfl | hs
    · exact noNL_append (noNL_append (by decide)
        (noNL_pyJoin _ _ (by decide) hnames)) (by decide)
    rcases List.mem_cons.mp hs with rfl | hs
    · exact noNL_append (noNL_append (by decide)
        (noNL_pyJoin _ _ (by decide) (noNL_alignToken _ _))) (by decide)
    · exact hallnl s hs
  · rfl
  · rw [alignTokens_eq df.columns.length hm b]
    rfl

/-- Witness for claim C6 at the specification's own end-to-end example table
(text column, integer column, three rows, default options). -/
theorem c6_witness :
    ∃ L : List String,
      plToMarkdownTable dfExample true noFmts = some (pyJoin "\n" L) ∧
      L.length = dfExample.rows.length + 2 ∧
      (∀ s ∈ L, '\n' ∉ s.data) ∧
      L.head? = some ("| " ++ pyJoin " | " dfExample.columns ++ " |") ∧
      L.get? 1 = some ("| " ++ pyJoin " | "
        ((if true then ":--" else "--:") ::
          List.replicate (dfExample.columns.length - 1) "--:") ++ " |") :=
  c6_table_shape dfExample true (by decide)
    (by
      show ∀ row ∈ dfExample.rows, ∀ p ∈ row.zip dfExample.columns,
        dtypeOkB (dfExample.dtype p.2) p.1 = true
      decide)
    (by decide)
    (by decide)

end Polarstory
